import Mathlib

/-!
Shallow embedding of the go-mcp-tools inspection engine.

The Go sources embedded here are:
* `gopls_utils.go` — position resolution (`createGoplsPosition` and its inner
  helpers `isIdentifierChar`, `isWordBoundary`, `findSymbolColumnPosition`);
* the inspection/formatting engine (`Inspect`, `formatFunction`, `formatType`,
  `formatVariable`, `formatFile`, `formatReferences`, `formatImplementers`,
  `formatCallHierarchy`, `formatScope`, `buildScopeHierarchyAtLine`,
  `findBlockScopesAtLine`, `isPartOfConstruct`, `determineScope`,
  `findTypeAtLine`, `readSourceLines`, `resolveFilePath`, `isFileInWorkspace`)
  and the parse cache (`fileCache.GetOrParseFile`);
* the rename tool (`Rename`).

Modelling conventions:
* Text is ASCII: Go indexes lines by byte; lines are `List Char` / `String`.
* The file system is a snapshot `Disk` mapping a path to its content split on
  newlines (Go reads a file and calls `strings.Split(content, "\n")`), plus a
  parser oracle giving the result `go/parser` produces for that content.
* The external collaborator (the `gopls` subprocess) is an oracle
  `GoplsFn : List String → Except String String` from the argument list to the
  trimmed combined output or a failure, exactly the interface of
  `executeGoplsCommand`.
* Go map iteration order is not specified; everywhere the code ranges over a
  map we keep the key set as an insertion-ordered duplicate-free list and
  enumerate it through an order oracle `IterFn`; a run of the program
  corresponds to an oracle that permutes each key list.
* Machine integers: Go `int` line numbers are `Int` (the code compares them
  with 0); syntax-tree line positions are `Nat`.
-/

/-! ### Position resolution (gopls_utils.go) -/

/-- `isIdentifierChar` from `createGoplsPosition`: a character that can be part
of a Go identifier (ASCII letters, digits, underscore). -/
def isIdentifierChar (r : Char) : Bool :=
  ('a' ≤ r && r ≤ 'z') || ('A' ≤ r && r ≤ 'Z') || ('0' ≤ r && r ≤ '9') || r == '_'

/-- `isWordBoundary` from `createGoplsPosition`: the occurrence of `symbol` at
`index` in `line` is at a word boundary (the character before, if any, and the
character after, if any, are not identifier characters). -/
def isWordBoundary (line : List Char) (index : Nat) (symbol : List Char) : Bool :=
  (if 0 < index then !isIdentifierChar (line.getD (index - 1) ' ') else true) &&
  (if index + symbol.length < line.length then
      !isIdentifierChar (line.getD (index + symbol.length) ' ')
    else true)

/-- `targetLine[i:i+len(symbolName)] == symbolName` for an in-range index. -/
def matchesAt (line symbol : List Char) (i : Nat) : Bool :=
  (line.drop i).take symbol.length == symbol

/-- The scan loop of `findSymbolColumnPosition`: try indices
`0 ≤ i ≤ len(line) - len(symbol)` left to right, return the 1-based column of
the first boundary occurrence (the Go loop body runs zero times when the
symbol is longer than the line, because its upper bound is negative). -/
def findSymbolColumn (line symbol : List Char) : Option Nat :=
  if line.length < symbol.length then none
  else
    match (List.range (line.length - symbol.length + 1)).find?
        (fun i => matchesAt line symbol i && isWordBoundary line i symbol) with
    | some i => some (i + 1)
    | none => none

/-- Specification-side predicate, following the words of the spec: `symbol`
occurs at 0-based index `i` of `line` as an exact character sequence, and the
character immediately preceding (if any) and immediately following (if any)
are not identifier characters. -/
def boundaryOccurrence (line symbol : List Char) (i : Nat) : Prop :=
  i + symbol.length ≤ line.length ∧
  (∀ j, j < symbol.length → line.getD (i + j) ' ' = symbol.getD j ' ') ∧
  (0 < i → isIdentifierChar (line.getD (i - 1) ' ') = false) ∧
  (i + symbol.length < line.length →
    isIdentifierChar (line.getD (i + symbol.length) ' ') = false)

instance (line symbol : List Char) (i : Nat) :
    Decidable (boundaryOccurrence line symbol i) := by
  unfold boundaryOccurrence; infer_instance

/-! ### The parse cache (`fileCache`, `GetOrParseFile`)

The cache claims are about staleness, keying and error behaviour, none of
which depend on the contents of a parsed tree, so the `ast`/`fset` payload of
a cache entry is represented by an identity token: every successful parse
allocates a fresh token (`ParseCache.nextAstId`), which models "same tree
instance" as token equality.  The Go map `files map[string]*cachedFile` is an
association list whose insert overwrites the binding for an existing key,
which is exactly the semantics of a Go map write. -/

/-- One observation of a path on disk, as `GetOrParseFile` sees it: the result
of `os.Stat` (`none` = stat error, `some t` = modification time), whether
`os.ReadFile` succeeds, and whether `parser.ParseFile` yields a tree at all
(syntax errors with a usable tree count as success, per the code). -/
structure FileMeta where
  modTime : Option Int
  readOk : Bool
  parseOk : Bool

/-- Disk snapshot seen by the cache. -/
abbrev CacheFS := String → FileMeta

/-- `cachedFile`: identity token of the parsed tree, the modification time
recorded at parse time, and the path. -/
structure CachedFile where
  ast : Nat
  modTime : Int
  filePath : String
deriving DecidableEq

/-- `fileCache`: the path-keyed entry map plus the allocator for tree identity
tokens. -/
structure ParseCache where
  files : List (String × CachedFile)
  nextAstId : Nat
deriving DecidableEq

/-- Go map lookup `cache.files[filePath]`. -/
def fcLookup : List (String × CachedFile) → String → Option CachedFile
  | [], _ => none
  | (k, v) :: rest, p => if k = p then some v else fcLookup rest p

/-- Go map write `cache.files[filePath] = cached`: overwrite the existing
binding if the key is present, otherwise append. -/
def fcInsert : List (String × CachedFile) → String → CachedFile → List (String × CachedFile)
  | [], p, v => [(p, v)]
  | (k, w) :: rest, p, v =>
      if k = p then (p, v) :: rest else (k, w) :: fcInsert rest p v

/-- The reparse path of `GetOrParseFile`: read the file, parse it, stat it,
then record the fresh entry; each failing step returns an error before the
map is touched. -/
def reparseFile (fs : CacheFS) (cache : ParseCache) (path : String) :
    Except String CachedFile × ParseCache :=
  if !(fs path).readOk then
    (.error s!"failed to read file {path}", cache)
  else if !(fs path).parseOk then
    (.error s!"failed to parse file {path}", cache)
  else
    match (fs path).modTime with
    | none => (.error s!"failed to stat file {path}", cache)
    | some t =>
        let newEntry : CachedFile := ⟨cache.nextAstId, t, path⟩
        (.ok newEntry, ⟨fcInsert cache.files path newEntry, cache.nextAstId + 1⟩)

/-- `fileCache.GetOrParseFile`: serve the cached entry when it exists and the
current modification time is not strictly after the recorded one
(`err == nil && !stat.ModTime().After(cached.modTime)`); otherwise reparse. -/
def GetOrParseFile (fs : CacheFS) (cache : ParseCache) (path : String) :
    Except String CachedFile × ParseCache :=
  match fcLookup cache.files path with
  | some cached =>
      match (fs path).modTime with
      | some t =>
          if t ≤ cached.modTime then (.ok cached, cache)
          else reparseFile fs cache path
      | none => reparseFile fs cache path
  | none => reparseFile fs cache path

/-- Well-formedness of a cache state: keys are distinct (it models a Go map)
and every stored tree token was allocated before `nextAstId`. -/
def CacheWF (cache : ParseCache) : Prop :=
  (cache.files.map Prod.fst).Nodup ∧
  ∀ e ∈ cache.files, e.2.ast < cache.nextAstId

instance (cache : ParseCache) : Decidable (CacheWF cache) := by
  unfold CacheWF; infer_instance

/-! ### Go statement trees and the block-scope walker

`findBlockScopesAtLine` walks a function body with `ast.Inspect`, pruning
subtrees whose line range does not contain the target line, and emits a frame
for every control construct; for a `*ast.BlockStmt` it emits a `block` frame
unless `isPartOfConstruct(node, n)` holds — where the call site passes the
block itself as both arguments.  The statement model keeps, for each node,
exactly what the walk consults: its start/end line and its children, with the
body blocks of constructs in their designated positions.  Go compares body
pointers with `==`; in a tree without sharing two distinct nodes in the same
file have distinct line spans, so structural equality (`beqStmt`) coincides
with pointer equality on the concrete trees used in the theorems. -/

inductive GoStmt : Type where
  | ifS (startLine endLine : Nat) (body : GoStmt) (els : Option GoStmt)
  | forS (startLine endLine : Nat) (body : GoStmt)
  | rangeS (startLine endLine : Nat) (body : GoStmt)
  | switchS (startLine endLine : Nat) (body : GoStmt)
  | typeSwitchS (startLine endLine : Nat) (body : GoStmt)
  | selectS (startLine endLine : Nat) (body : GoStmt)
  | funcLitS (startLine endLine : Nat) (body : GoStmt)
  | blockS (startLine endLine : Nat) (stmts : List GoStmt)
  | caseS (startLine endLine : Nat) (body : List GoStmt)
  | commS (startLine endLine : Nat) (body : List GoStmt)
  | otherS (startLine endLine : Nat) (children : List GoStmt)

mutual
def beqStmt : GoStmt → GoStmt → Bool
  | .ifS s1 e1 b1 o1, .ifS s2 e2 b2 o2 =>
      s1 == s2 && e1 == e2 && beqStmt b1 b2 && beqOptStmt o1 o2
  | .forS s1 e1 b1, .forS s2 e2 b2 => s1 == s2 && e1 == e2 && beqStmt b1 b2
  | .rangeS s1 e1 b1, .rangeS s2 e2 b2 => s1 == s2 && e1 == e2 && beqStmt b1 b2
  | .switchS s1 e1 b1, .switchS s2 e2 b2 => s1 == s2 && e1 == e2 && beqStmt b1 b2
  | .typeSwitchS s1 e1 b1, .typeSwitchS s2 e2 b2 => s1 == s2 && e1 == e2 && beqStmt b1 b2
  | .selectS s1 e1 b1, .selectS s2 e2 b2 => s1 == s2 && e1 == e2 && beqStmt b1 b2
  | .funcLitS s1 e1 b1, .funcLitS s2 e2 b2 => s1 == s2 && e1 == e2 && beqStmt b1 b2
  | .blockS s1 e1 l1, .blockS s2 e2 l2 => s1 == s2 && e1 == e2 && beqListStmt l1 l2
  | .caseS s1 e1 l1, .caseS s2 e2 l2 => s1 == s2 && e1 == e2 && beqListStmt l1 l2
  | .commS s1 e1 l1, .commS s2 e2 l2 => s1 == s2 && e1 == e2 && beqListStmt l1 l2
  | .otherS s1 e1 l1, .otherS s2 e2 l2 => s1 == s2 && e1 == e2 && beqListStmt l1 l2
  | _, _ => false

def beqOptStmt : Option GoStmt → Option GoStmt → Bool
  | none, none => true
  | some a, some b => beqStmt a b
  | _, _ => false

def beqListStmt : List GoStmt → List GoStmt → Bool
  | [], [] => true
  | a :: as2, b :: bs2 => beqStmt a b && beqListStmt as2 bs2
  | _, _ => false
end

instance : BEq GoStmt := ⟨beqStmt⟩

/-- The per-node check inside `isPartOfConstruct`: does node `n` have `block`
as the direct body (for `*ast.IfStmt` also as the `Else` branch, for case and
communication clauses as one of the body statements)? -/
def hasAsDirectBody (block n : GoStmt) : Bool :=
  match n with
  | .ifS _ _ b e => beqStmt b block || beqOptStmt e (some block)
  | .forS _ _ b => beqStmt b block
  | .rangeS _ _ b => beqStmt b block
  | .switchS _ _ b => beqStmt b block
  | .typeSwitchS _ _ b => beqStmt b block
  | .selectS _ _ b => beqStmt b block
  | .funcLitS _ _ b => beqStmt b block
  | .caseS _ _ l => l.any (fun st => beqStmt st block)
  | .commS _ _ l => l.any (fun st => beqStmt st block)
  | _ => false

mutual
def anyNode (p : GoStmt → Bool) : GoStmt → Bool
  | .ifS s e b els => p (.ifS s e b els) || anyNode p b || anyNodeOpt p els
  | .forS s e b => p (.forS s e b) || anyNode p b
  | .rangeS s e b => p (.rangeS s e b) || anyNode p b
  | .switchS s e b => p (.switchS s e b) || anyNode p b
  | .typeSwitchS s e b => p (.typeSwitchS s e b) || anyNode p b
  | .selectS s e b => p (.selectS s e b) || anyNode p b
  | .funcLitS s e b => p (.funcLitS s e b) || anyNode p b
  | .blockS s e l => p (.blockS s e l) || anyNodeList p l
  | .caseS s e l => p (.caseS s e l) || anyNodeList p l
  | .commS s e l => p (.commS s e l) || anyNodeList p l
  | .otherS s e l => p (.otherS s e l) || anyNodeList p l

def anyNodeOpt (p : GoStmt → Bool) : Option GoStmt → Bool
  | none => false
  | some s => anyNode p s

def anyNodeList (p : GoStmt → Bool) : List GoStmt → Bool
  | [] => false
  | s :: rest => anyNode p s || anyNodeList p rest
end

/-- `isPartOfConstruct(block, parent)`: walk the subtree rooted at `parent`
with `ast.Inspect` and report whether any visited node has `block` as its
direct body (the Go visitor stops early once found; the result is the same as
an any-node search). -/
def isPartOfConstruct (block parent : GoStmt) : Bool :=
  anyNode (fun n => hasAsDirectBody block n) parent

def GoStmt.startLine : GoStmt → Nat
  | .ifS s _ _ _ => s | .forS s _ _ => s | .rangeS s _ _ => s | .switchS s _ _ => s
  | .typeSwitchS s _ _ => s | .selectS s _ _ => s | .funcLitS s _ _ => s
  | .blockS s _ _ => s | .caseS s _ _ => s | .commS s _ _ => s | .otherS s _ _ => s

def GoStmt.endLine : GoStmt → Nat
  | .ifS _ e _ _ => e | .forS _ e _ => e | .rangeS _ e _ => e | .switchS _ e _ => e
  | .typeSwitchS _ e _ => e | .selectS _ e _ => e | .funcLitS _ e _ => e
  | .blockS _ e _ => e | .caseS _ e _ => e | .commS _ e _ => e | .otherS _ e _ => e

/-- The switch body of the `findBlockScopesAtLine` visitor: the frame(s) a
single visited node contributes.  Each case re-checks the containment of the
target line exactly as the code does; the `*ast.BlockStmt` case additionally
requires `!isPartOfConstruct(node, n)`, with `node` and `n` both being the
block under visit, as at the call site in the source. -/
def frameFor (targetLine : Nat) (n : GoStmt) : List String :=
  match n with
  | .ifS s e _ _ =>
      if s ≤ targetLine ∧ targetLine ≤ e then [s!"if (lines {s}-{e})"] else []
  | .forS s e _ =>
      if s ≤ targetLine ∧ targetLine ≤ e then [s!"for (lines {s}-{e})"] else []
  | .rangeS s e _ =>
      if s ≤ targetLine ∧ targetLine ≤ e then [s!"range (lines {s}-{e})"] else []
  | .switchS s e _ =>
      if s ≤ targetLine ∧ targetLine ≤ e then [s!"switch (lines {s}-{e})"] else []
  | .typeSwitchS s e _ =>
      if s ≤ targetLine ∧ targetLine ≤ e then [s!"type-switch (lines {s}-{e})"] else []
  | .selectS s e _ =>
      if s ≤ targetLine ∧ targetLine ≤ e then [s!"select (lines {s}-{e})"] else []
  | .blockS s e l =>
      if s ≤ targetLine ∧ targetLine ≤ e ∧
          isPartOfConstruct (.blockS s e l) (.blockS s e l) = false then
        [s!"block (lines {s}-{e})"]
      else []
  | _ => []

mutual
def inspectScopes (t : Nat) : GoStmt → List String
  | .ifS s e b els =>
      if t < s ∨ e < t then []
      else frameFor t (.ifS s e b els) ++ inspectScopes t b ++ inspectScopesOpt t els
  | .forS s e b =>
      if t < s ∨ e < t then [] else frameFor t (.forS s e b) ++ inspectScopes t b
  | .rangeS s e b =>
      if t < s ∨ e < t then [] else frameFor t (.rangeS s e b) ++ inspectScopes t b
  | .switchS s e b =>
      if t < s ∨ e < t then [] else frameFor t (.switchS s e b) ++ inspectScopes t b
  | .typeSwitchS s e b =>
      if t < s ∨ e < t then [] else frameFor t (.typeSwitchS s e b) ++ inspectScopes t b
  | .selectS s e b =>
      if t < s ∨ e < t then [] else frameFor t (.selectS s e b) ++ inspectScopes t b
  | .funcLitS s e b =>
      if t < s ∨ e < t then [] else frameFor t (.funcLitS s e b) ++ inspectScopes t b
  | .blockS s e l =>
      if t < s ∨ e < t then [] else frameFor t (.blockS s e l) ++ inspectScopesList t l
  | .caseS s e l =>
      if t < s ∨ e < t then [] else frameFor t (.caseS s e l) ++ inspectScopesList t l
  | .commS s e l =>
      if t < s ∨ e < t then [] else frameFor t (.commS s e l) ++ inspectScopesList t l
  | .otherS s e l =>
      if t < s ∨ e < t then [] else frameFor t (.otherS s e l) ++ inspectScopesList t l

def inspectScopesOpt (t : Nat) : Option GoStmt → List String
  | none => []
  | some s => inspectScopes t s

def inspectScopesList (t : Nat) : List GoStmt → List String
  | [] => []
  | s :: rest => inspectScopes t s ++ inspectScopesList t rest
end

/-- `findBlockScopesAtLine(stmt, fset, targetLine)`: the preorder
`ast.Inspect` walk of the function body, pruned to nodes whose line range
contains the target line, collecting the frames of `frameFor`. -/
def findBlockScopesAtLine (body : GoStmt) (targetLine : Nat) : List String :=
  inspectScopes targetLine body

/-! ### Declarations, files and the environment of the formatters

Positions: a `token.FileSet` turns a node position into a file name and line;
the model stores the resulting file name and lines directly on each node.
`globalFileCache.GetOrParseFile` as used by the formatters returns, for a
fixed disk snapshot, the parse result of the current file content; it is a
pure query here (`cacheParse`), since the formatter output depends only on the
returned tree. -/

/-- Receiver expression of a method, as consumed by
`extractReceiverTypeName` / `extractReceiverTypeSimple`: a plain identifier,
a pointer to an identifier, or anything else. -/
inductive RecvExpr : Type where
  | ident (name : String)
  | star (name : String)
  | otherRecv
deriving DecidableEq

/-- A function body: the line of the character just before the opening brace
(`fset.Position(fn.Body.Pos() - 1).Line`) and the block itself, whose end line
is `fset.Position(fn.Body.End()).Line`. -/
structure FuncBody where
  openLine : Nat
  block : GoStmt

/-- `*ast.FuncDecl` as consumed by the formatters: name, receiver, doc text
(`none` models a nil doc comment), file name, start line of the signature,
the line of `fn.End()` for a body-less declaration, and the optional body. -/
structure GoFuncDecl where
  name : String
  recv : Option RecvExpr
  doc : Option String
  filename : String
  startLine : Nat
  sigEndLine : Nat
  body : Option FuncBody

/-- `fset.Position(fn.End()).Line`: the body's end when there is one. -/
def GoFuncDecl.endLine (fn : GoFuncDecl) : Nat :=
  match fn.body with
  | some b => b.block.endLine
  | none => fn.sigEndLine

/-- `*ast.TypeSpec`: `isInterface` models
`typeSpec.Type.(*ast.InterfaceType)` succeeding with non-nil `Methods`. -/
structure GoTypeSpec where
  name : String
  doc : Option String
  filename : String
  startLine : Nat
  endLine : Nat
  isInterface : Bool

/-- `*ast.ValueSpec` (variables and constants, possibly several names). -/
structure GoValueSpec where
  names : List String
  doc : Option String
  filename : String
  startLine : Nat
  endLine : Nat

/-- `*ast.ImportSpec`: only its source span is consumed. -/
structure GoImportSpec where
  filename : String
  startLine : Nat
  endLine : Nat

/-- The token of a `*ast.GenDecl`. -/
inductive GoTok : Type where
  | typeTok | varTok | constTok | importTok
deriving DecidableEq

inductive GoSpec : Type where
  | typeSpec (ts : GoTypeSpec)
  | valueSpec (vs : GoValueSpec)
  | importSpec (im : GoImportSpec)

/-- `*ast.GenDecl`: token, doc comment, and the spec list. -/
structure GoGenDecl where
  tok : GoTok
  doc : Option String
  specs : List GoSpec

inductive GoDecl : Type where
  | funcDecl (fn : GoFuncDecl)
  | genDecl (g : GoGenDecl)

/-- `*ast.File` as consumed by the engine. -/
structure GoFile where
  filename : String
  posValid : Bool
  pkgName : String
  doc : Option String
  decls : List GoDecl

/-- The three outcomes of `parser.ParseFile` distinguished by the code: a
clean tree, a tree with a `scanner.ErrorList` (usable, reported as a
warning), or no tree at all (fatal). -/
inductive ParseOutcome : Type where
  | parsed (f : GoFile)
  | withSyntaxErrors (f : GoFile) (errs : String)
  | noAst (msg : String)

/-- Disk snapshot: per path, the file content split on `"\n"` (`none` = the
file does not exist / cannot be read) and the parser outcome for it. -/
structure Disk where
  lines : String → Option (List String)
  parse : String → ParseOutcome

/-- The external collaborator: `executeGoplsCommand` arguments to trimmed
output. -/
abbrev GoplsFn := List String → Except String String

/-- Map-iteration order oracle: how a Go run enumerates the keys of a map,
given the key set as an insertion-ordered list. -/
abbrev IterFn := List String → List String

/-- ASCII model of `strings.TrimSpace`, computed on the character list so
that proofs can evaluate it. -/
def strTrim (s : String) : String :=
  ⟨((s.data.dropWhile Char.isWhitespace).reverse.dropWhile Char.isWhitespace).reverse⟩

/-- `strings.HasSuffix`. -/
def strEndsWith (s suffix : String) : Bool := suffix.data.isSuffixOf s.data

/-- `strings.HasPrefix`. -/
def strStartsWith (s pre : String) : Bool := pre.data.isPrefixOf s.data

/-- Drop the last `n` characters (`s[:len(s)-n]`). -/
def strDropRight (s : String) (n : Nat) : String := ⟨s.data.take (s.data.length - n)⟩

/-- `strings.Split` with a single-character separator, the only form the
engine uses (`"\n"` and `":"`). -/
def splitCharList (c : Char) : List Char → List (List Char)
  | [] => [[]]
  | ch :: rest =>
      let r := splitCharList c rest
      if ch = c then [] :: r
      else (ch :: r.headD []) :: r.tail

/-- `strings.Split` at the `String` level. -/
def splitOnChar (s : String) (c : Char) : List String :=
  (splitCharList c s.data).map (fun l => ⟨l⟩)

/-- Decimal digit parse of a whole string (the digits path of
`strconv.Atoi`). -/
def strToNat (s : String) : Option Nat :=
  if s.data ≠ [] ∧ s.data.all Char.isDigit then
    some (s.data.foldl (fun n c => n * 10 + (c.toNat - '0'.toNat)) 0)
  else none

/-- `strconv.Atoi` (overflow is irrelevant at the sizes in play). -/
def atoi (s2 : String) : Option Int :=
  match s2.data with
  | '-' :: rest => (strToNat ⟨rest⟩).map (fun n => -(n : Int))
  | '+' :: rest => (strToNat ⟨rest⟩).map (fun n => (n : Int))
  | _ => (strToNat s2).map (fun n => (n : Int))

/-- `readSourceLines`: the 1-based inclusive line range of a file, joined with
newlines; reading a missing file fails. -/
def readSourceLines (disk : Disk) (filename : String) (startLine endLine : Nat) :
    Except String String :=
  match disk.lines filename with
  | none => .error s!"open {filename}: no such file or directory"
  | some ls =>
      .ok (String.intercalate "\n" ((ls.drop (startLine - 1)).take (endLine + 1 - startLine)))

/-- `isFileInWorkspace`: `filepath.Rel(workspaceDir, filePath)` does not start
with `".."`.  For the cleaned absolute paths of the model this holds exactly
when the workspace directory is the file's path-prefix. -/
def isFileInWorkspace (filePath workspaceDir : String) : Bool :=
  if workspaceDir = "" then false
  else filePath == workspaceDir ||
    List.isPrefixOf (workspaceDir.toList ++ ['/']) filePath.toList

/-- `ast.IsExported`: the first character is an upper-case letter (ASCII model
of `unicode.IsUpper` on the first rune). -/
def isExportedName (name : String) : Bool :=
  match name.toList with
  | [] => false
  | c :: _ => 'A' ≤ c && c ≤ 'Z'

/-- The lookup part of `createGoplsPosition`'s `findSymbolColumnPosition`:
read the file, pick the 1-based target line, and scan it. -/
def findSymbolColumnPosition (disk : Disk) (filePath : String) (lineNumber : Int)
    (symbolName : String) : Except String Nat :=
  match disk.lines filePath with
  | none => .error "failed to read file"
  | some ls =>
      if (ls.length : Int) < lineNumber then
        .error s!"line number {lineNumber} exceeds file length ({ls.length} lines)"
      else
        match findSymbolColumn (ls.getD (lineNumber - 1).toNat "").toList symbolName.toList with
        | some col => .ok col
        | none =>
            .error s!"symbol \x27{symbolName}\x27 not found at a word boundary at line {lineNumber}"

/-- `createGoplsPosition`: validate the inputs, check the file exists, resolve
the column, and produce the `file:line:column` position string (paths in the
model are already absolute, so `filepath.Abs` is the identity). -/
def createGoplsPosition (disk : Disk) (filePath : String) (lineNumber : Int)
    (symbolName : String) : Except String String :=
  if lineNumber ≤ 0 then
    .error s!"invalid line number: {lineNumber} (must be greater than 0)"
  else if symbolName = "" then
    .error "symbol name cannot be empty"
  else if (disk.lines filePath).isNone then
    .error s!"file does not exist: {filePath}"
  else
    match findSymbolColumnPosition disk filePath lineNumber symbolName with
    | .error e =>
        .error s!"failed to find symbol \x27{symbolName}\x27 at line {lineNumber} in {filePath}: {e}"
    | .ok col => .ok s!"{filePath}:{lineNumber}:{col}"

/-- `globalFileCache.GetOrParseFile` as a pure query against the disk
snapshot: the tree for the current content, an error when the file cannot be
read or no tree is produced (a tree with syntax errors is still returned). -/
def cacheParse (disk : Disk) (filePath : String) : Except String GoFile :=
  match disk.lines filePath with
  | none => .error s!"failed to read file {filePath}"
  | some _ =>
      match disk.parse filePath with
      | .parsed f => .ok f
      | .withSyntaxErrors f _ => .ok f
      | .noAst m => .error s!"failed to parse file {filePath}: {m}"

/-! ### Section builders shared by the formatters -/

/-- The `Lines:` section: a range when the end is strictly below... strictly
above the start, a single line otherwise. -/
def linesSection (startLine endLine : Nat) : String :=
  if startLine < endLine then s!"Lines: {startLine}-{endLine}\n"
  else s!"Lines: {startLine}\n"

/-- The `Docstring:` section of `formatFunction`: present exactly when the
declaration has a doc comment (`fn.Doc != nil`). -/
def funcDocSection (doc : Option String) : String :=
  match doc with
  | some d => "Docstring: " ++ strTrim d ++ "\n"
  | none => ""

/-- The `Docstring:` section of `formatType`/`formatVariable`: the spec's own
doc text, falling back to the enclosing `GenDecl`'s; emitted when non-empty. -/
def declDocSection (doc parentDoc : Option String) : String :=
  let docText :=
    match doc with
    | some d => d
    | none => match parentDoc with | some d => d | none => ""
  if docText = "" then "" else "Docstring: " ++ strTrim docText ++ "\n"

/-- The `Code:` section of `formatFunction`: the signature lines (up to the
character before the opening brace), trimmed, with a trailing `{` stripped. -/
def funcCodeSection (disk : Disk) (fn : GoFuncDecl) : String :=
  let endLine := match fn.body with | some b => b.openLine | none => fn.sigEndLine
  "Code:\n" ++
    match readSourceLines disk fn.filename fn.startLine endLine with
    | .ok raw =>
        let trimmed := strTrim raw
        if strEndsWith trimmed "\x7b" then strTrim (strDropRight trimmed 1) else trimmed
    | .error e => s!"// Error reading source: {e}"

/-- The `Code:` section of `formatType`/`formatVariable`: the raw span. -/
def rawCodeSection (disk : Disk) (filename : String) (startLine endLine : Nat) : String :=
  "Code:\n" ++
    match readSourceLines disk filename startLine endLine with
    | .ok raw => raw
    | .error e => s!"// Error reading source: {e}"

/-- The sections of `formatFunction` that do not consult the external
collaborator (everything before the references / call-hierarchy parts); this
is also the whole output of `formatFunction` when both include flags are
false, as the reference aggregator invokes it. -/
def formatFunctionCore (disk : Disk) (fn : GoFuncDecl) : String :=
  linesSection fn.startLine fn.endLine ++ funcDocSection fn.doc ++ funcCodeSection disk fn

/-- The sections of `formatType` that do not consult the collaborator or the
cache, which is the whole output of `formatType` with all flags false, as
`formatImplementers` invokes it (with a nil parent decl). -/
def formatTypeCore (disk : Disk) (ts : GoTypeSpec) (parentDoc : Option String) : String :=
  linesSection ts.startLine ts.endLine ++ declDocSection ts.doc parentDoc ++
    rawCodeSection disk ts.filename ts.startLine ts.endLine

/-! ### The reference aggregator (`formatReferences` and friends) -/

/-- `extractReceiverTypeName`. -/
def extractReceiverTypeName : RecvExpr → String
  | .ident n => n
  | .star n => n
  | .otherRecv => ""

/-- `extractReceiverTypeSimple`. -/
def extractReceiverTypeSimple : RecvExpr → String
  | .ident n => n
  | .star n => "*" ++ n
  | .otherRecv => "unknown"

/-- One raw collaborator output line `path:line:startCol-endCol` parsed as in
both aggregation loops: trim, skip empty lines and lines with fewer than
three `:`-separated parts, rejoin all but the last two parts as the path, and
parse the next-to-last part as the line number. -/
def parseLocationLine (line : String) : Option (String × Int) :=
  let l := strTrim line
  if l = "" then none
  else
    let parts := splitOnChar l ':'
    if parts.length < 3 then none
    else
      match atoi (parts.getD (parts.length - 2) "") with
      | some ln => some (String.intercalate ":" (parts.take (parts.length - 2)), ln)
      | none => none

/-- `determineScope`: the enclosing function of a referenced line, rendered as
`path:funcStartLine:funcName`, or the path itself for package scope; fails
when the owning file cannot be parsed. -/
def determineScope (disk : Disk) (filePath : String) (lineNumber : Int) :
    Except String String :=
  match cacheParse disk filePath with
  | .error e => .error e
  | .ok f =>
      match f.decls.findSome? (fun d =>
        match d with
        | .funcDecl fn =>
            if (fn.startLine : Int) ≤ lineNumber ∧ lineNumber ≤ (fn.endLine : Int) then
              some s!"{filePath}:{fn.startLine}:{fn.name}"
            else none
        | _ => none) with
      | some sc => .ok sc
      | none => .ok filePath

/-- Set insertion preserving first-insertion order (`map[k] = true`). -/
def insertSet (l : List String) (x : String) : List String :=
  if x ∈ l then l else l ++ [x]

/-- The grouping pass of `formatReferences`: split the collaborator output
into lines and sort each parsed location into the function-scope key set or
the package-file key set (parse failures of the owning file degrade to
package scope). -/
def collectRefScopes (disk : Disk) (outputStr : String) : List String × List String :=
  (splitOnChar outputStr '\n').foldl
    (fun (acc : List String × List String) line =>
      match parseLocationLine line with
      | none => acc
      | some (fp, ln) =>
          match determineScope disk fp ln with
          | .error _ => (acc.1, insertSet acc.2 fp)
          | .ok sc =>
              if sc ≠ fp then (insertSet acc.1 sc, acc.2)
              else (acc.1, insertSet acc.2 fp))
    ([], [])

/-- One output event of the rendering loops: whether the write goes through
`addSeparator` (which emits `"\n\n"` between separated writes), and the text
written. -/
abbrev ChunkEvent := Bool × String

/-- The `lineWritten`/`addSeparator` mechanics shared by the rendering loops:
a separated write emits `"\n\n"` first iff a separated write already happened;
a raw write (the parse-error line of the references loop) bypasses both the
separator and the flag. -/
def renderChunks (events : List ChunkEvent) : String :=
  (events.foldl
    (fun (acc : String × Bool) ev =>
      if ev.1 then (acc.1 ++ (if acc.2 then "\n\n" else "") ++ ev.2, true)
      else (acc.1 ++ ev.2, acc.2))
    ("", false)).1

/-- The body of the function-scope rendering loop of `formatReferences` for
one scope key: re-split the key, parse the owning file (a failure is written
without separator), find the first function declaration containing the line,
format it with references and call hierarchy off, and emit each non-empty
output line indented by two spaces as a separated write. -/
def refFuncScopeEvents (disk : Disk) (scope : String) : List ChunkEvent :=
  let parts := splitOnChar scope ':'
  if parts.length < 3 then []
  else
    let fp := String.intercalate ":" (parts.take (parts.length - 2))
    match atoi (parts.getD (parts.length - 2) "") with
    | none => []
    | some ln =>
        match cacheParse disk fp with
        | .error e => [(false, s!"  Error parsing file {fp}: {e}\n")]
        | .ok f =>
            match f.decls.findSome? (fun d =>
              match d with
              | .funcDecl fn =>
                  if ln < (fn.startLine : Int) ∨ (fn.endLine : Int) < ln then none
                  else some fn
              | _ => none) with
            | none => []
            | some fn =>
                ((splitOnChar (formatFunctionCore disk fn) '\n').filter
                    (fun l => l ≠ "")).map
                  (fun line => (true, "  " ++ line ++ "\n"))

/-- `formatReferences`: header, parameter validation, position resolution,
the collaborator call (on failure the error line is written and the empty
output then also produces `No references found`), grouping, and the two
rendering loops (function groups in map order, then package groups in map
order). -/
def formatReferences (disk : Disk) (gopls : GoplsFn) (iter : IterFn)
    (filePath : String) (lineNumber : Int) (symbolName : String) : String :=
  "References:\n" ++
  if filePath = "" ∨ lineNumber ≤ 0 ∨ symbolName = "" then
    "Invalid parameters for finding references\n"
  else
    match createGoplsPosition disk filePath lineNumber symbolName with
    | .error e => s!"Failed to find references: {e}\n"
    | .ok position =>
        let failMsg :=
          match gopls ["references", position] with
          | .error e => s!"gopls references failed: {e}\n"
          | .ok _ => ""
        let outputStr :=
          match gopls ["references", position] with
          | .error _ => ""
          | .ok out => out
        failMsg ++
        if outputStr = "" then "No references found\n"
        else
          let scopes := collectRefScopes disk outputStr
          if scopes.1.isEmpty ∧ scopes.2.isEmpty then "No references found\n"
          else
            renderChunks
              ((iter scopes.1).flatMap (refFuncScopeEvents disk) ++
               (iter scopes.2).map (fun fp => (true, "  Package scope: " ++ fp ++ "\n")))

/-! ### `formatImplementers` -/

/-- `implementers[fp] = append(implementers[fp], ln)` on an association list
keyed in first-insertion order. -/
def insertAppend (l : List (String × List Int)) (fp : String) (ln : Int) :
    List (String × List Int) :=
  match l with
  | [] => [(fp, [ln])]
  | (k, v) :: rest =>
      if k = fp then (k, v ++ [ln]) :: rest else (k, v) :: insertAppend rest fp ln

/-- The collection loop of `formatImplementers`: group the parsed locations by
file, keeping line order within a file. -/
def collectImplementers (outputStr : String) : List (String × List Int) :=
  (splitOnChar outputStr '\n').foldl
    (fun acc line =>
      match parseLocationLine line with
      | none => acc
      | some (fp, ln) => insertAppend acc fp ln)
    []

/-- `findTypeAtLine`: the first type spec of a `type` declaration whose line
range contains the target line. -/
def findTypeAtLine (f : GoFile) (targetLine : Int) : Option GoTypeSpec :=
  f.decls.findSome? (fun d =>
    match d with
    | .genDecl g =>
        if g.tok = .typeTok then
          g.specs.findSome? (fun sp =>
            match sp with
            | .typeSpec ts =>
                if (ts.startLine : Int) ≤ targetLine ∧ targetLine ≤ (ts.endLine : Int) then
                  some ts
                else none
            | _ => none)
        else none
    | _ => none)

/-- The rendering loop body of `formatImplementers` for one file key: for each
recorded line, parse the file, locate the type, and emit its formatted text
(all flags off, nil parent decl) line by line, indented; all writes here go
through the separator. -/
def implFileEvents (disk : Disk) (fp : String) (lns : List Int) : List ChunkEvent :=
  lns.flatMap (fun ln =>
    match cacheParse disk fp with
    | .error e => [(true, s!"  Error parsing file {fp}: {e}\n")]
    | .ok f =>
        match findTypeAtLine f ln with
        | none => [(true, s!"  No type found at {fp}:{ln}\n")]
        | some ts =>
            ((splitOnChar (formatTypeCore disk ts none) '\n').filter
                (fun l => l ≠ "")).map
              (fun line => (true, "  " ++ line ++ "\n")))

/-- `formatImplementers`: header, validation, position resolution, the
collaborator call (failure writes the error line and returns), grouping by
file, and rendering in map order over the file keys. -/
def formatImplementers (disk : Disk) (gopls : GoplsFn) (iter : IterFn)
    (filePath : String) (lineNumber : Int) (symbolName : String) : String :=
  "Implementers:\n" ++
  if filePath = "" ∨ lineNumber ≤ 0 ∨ symbolName = "" then
    "Invalid parameters for finding implementers\n"
  else
    match createGoplsPosition disk filePath lineNumber symbolName with
    | .error e => s!"Failed to find implementers: {e}\n"
    | .ok position =>
        match gopls ["implementation", position] with
        | .error e => s!"gopls implementation failed: {e}\n"
        | .ok outputStr =>
            if outputStr = "" then "No implementers found\n"
            else
              let implementers := collectImplementers outputStr
              if implementers.isEmpty then "No implementers found\n"
              else
                renderChunks
                  ((iter (implementers.map Prod.fst)).flatMap (fun fp =>
                    implFileEvents disk fp (((implementers.lookup fp).getD []))))

/-- `formatCallHierarchy`: header, validation, position resolution, and the
raw collaborator output passed through. -/
def formatCallHierarchy (disk : Disk) (gopls : GoplsFn)
    (filePath : String) (lineNumber : Int) (symbolName : String) : String :=
  "Call Hierarchy:\n" ++
  if filePath = "" ∨ lineNumber ≤ 0 ∨ symbolName = "" then
    "Invalid parameters for finding call hierarchy\n"
  else
    match createGoplsPosition disk filePath lineNumber symbolName with
    | .error e => s!"Failed to find call hierarchy: {e}\n"
    | .ok position =>
        match gopls ["call_hierarchy", position] with
        | .error e => s!"gopls call_hierarchy failed: {e}\n"
        | .ok out => if out = "" then "No call hierarchy found\n" else out ++ "\n"

/-! ### Scope hierarchy and the top-level declaration formatters -/

/-- `strings.Repeat("  ", i)`. -/
def strRepeat (s2 : String) (n : Nat) : String :=
  String.join (List.replicate n s2)

/-- `buildScopeHierarchyAtLine`: the package frame, then a frame for every
top-level type spec whose range contains the line, then for every function or
method containing the line a function/method frame followed by the block
frames of its body. -/
def buildScopeHierarchyAtLine (f : GoFile) (targetLine : Nat) : List String :=
  [s!"package {f.pkgName}"] ++
  f.decls.flatMap (fun d =>
    match d with
    | .genDecl g =>
        if g.tok = .typeTok then
          g.specs.flatMap (fun sp =>
            match sp with
            | .typeSpec ts =>
                if ts.startLine ≤ targetLine ∧ targetLine ≤ ts.endLine then
                  [s!"type {ts.name} (lines {ts.startLine}-{ts.endLine})"]
                else []
            | _ => [])
        else []
    | _ => []) ++
  f.decls.flatMap (fun d =>
    match d with
    | .funcDecl fn =>
        if fn.startLine ≤ targetLine ∧ targetLine ≤ fn.endLine then
          (match fn.recv with
           | some r =>
               [s!"method {extractReceiverTypeSimple r}.{fn.name} (lines {fn.startLine}-{fn.endLine})"]
           | none => [s!"function {fn.name} (lines {fn.startLine}-{fn.endLine})"]) ++
          (match fn.body with
           | some b => findBlockScopesAtLine b.block targetLine
           | none => [])
        else []
    | _ => [])

/-- `formatScope`: header, validation, parse, and the hierarchy with each
frame on its own line indented two spaces per nesting level. -/
def formatScope (disk : Disk) (filePath : String) (lineNumber : Int) : String :=
  "Scope:\n" ++
  if filePath = "" ∨ lineNumber ≤ 0 then
    "Invalid parameters for determining scope\n"
  else
    match cacheParse disk filePath with
    | .error e => s!"Error parsing file: {e}\n"
    | .ok f =>
        String.join ((buildScopeHierarchyAtLine f lineNumber.toNat).enum.map
          (fun p => strRepeat "  " p.1 ++ p.2 ++ "\n"))

/-- `formatFunction` with its include flags: the collaborator-free sections,
then — only when the file lies inside the workspace — the references and
call-hierarchy sections, each preceded by a blank line. -/
def formatFunction (disk : Disk) (gopls : GoplsFn) (iter : IterFn) (fn : GoFuncDecl)
    (includeReferences includeCallHierarchy : Bool) (workspaceDir : String) : String :=
  formatFunctionCore disk fn ++
  (if includeReferences && isFileInWorkspace fn.filename workspaceDir then
      "\n\n" ++ formatReferences disk gopls iter fn.filename (fn.startLine : Int) fn.name
    else "") ++
  (if includeCallHierarchy && isFileInWorkspace fn.filename workspaceDir then
      "\n\n" ++ formatCallHierarchy disk gopls fn.filename (fn.startLine : Int) fn.name
    else "")

/-- The method collection of `formatType`: every function declaration of the
file whose receiver type name matches the type's name. -/
def typeMethods (f : GoFile) (typeName : String) : List GoFuncDecl :=
  f.decls.flatMap (fun d =>
    match d with
    | .funcDecl fn =>
        match fn.recv with
        | some r => if extractReceiverTypeName r = typeName then [fn] else []
        | none => []
    | _ => [])

/-- `formatType` with its include flags, in the order of the code: core
sections; implementers (interface types only, workspace-gated); methods
(each formatted with references and call hierarchy off); references
(workspace-gated). -/
def formatType (disk : Disk) (gopls : GoplsFn) (iter : IterFn) (ts : GoTypeSpec)
    (includeReferences includeImplementers includeMethods : Bool)
    (parentDoc : Option String) (workspaceDir : String) : String :=
  formatTypeCore disk ts parentDoc ++
  (if ts.isInterface && includeImplementers && isFileInWorkspace ts.filename workspaceDir then
      "\n\n" ++ formatImplementers disk gopls iter ts.filename (ts.startLine : Int) ts.name
    else "") ++
  (if includeMethods then
      match cacheParse disk ts.filename with
      | .error _ => ""
      | .ok f =>
          String.join ((typeMethods f ts.name).map (fun m =>
            "\n\n" ++ formatFunction disk gopls iter m false false workspaceDir))
    else "") ++
  (if includeReferences && isFileInWorkspace ts.filename workspaceDir then
      "\n\n" ++ formatReferences disk gopls iter ts.filename (ts.startLine : Int) ts.name
    else "")

/-- `formatVariable` with its include flags: core sections; the scope section
(preceded by a single newline); then, workspace-gated, one references section
per declared name. -/
def formatVariable (disk : Disk) (gopls : GoplsFn) (iter : IterFn) (vs : GoValueSpec)
    (includeReferences includeScope : Bool)
    (parentDoc : Option String) (workspaceDir : String) : String :=
  linesSection vs.startLine vs.endLine ++ declDocSection vs.doc parentDoc ++
  rawCodeSection disk vs.filename vs.startLine vs.endLine ++
  (if includeScope then "\n" ++ formatScope disk vs.filename (vs.startLine : Int) else "") ++
  (if includeReferences && isFileInWorkspace vs.filename workspaceDir then
      String.join (vs.names.map (fun name =>
        "\n\n" ++ formatReferences disk gopls iter vs.filename (vs.startLine : Int) name))
    else "")

/-! ### `formatFile` -/

/-- The two optional header chunks of `formatFile`: the absolute file path
(when the file position is valid) and the file docstring. -/
def fileHeaderChunks (f : GoFile) : List String :=
  (if f.posValid then [s!"File: {f.filename}"] else []) ++
  (match f.doc with
   | some d => ["File Docstring:\n" ++ strTrim d]
   | none => [])

/-- The single `Imports:` chunk of `formatFile` (absent when the file has
no import specs): every trimmed import-spec source span, one per line. -/
def importChunks (disk : Disk) (f : GoFile) : List String :=
  let imports := f.decls.flatMap (fun d =>
    match d with
    | .genDecl g =>
        g.specs.flatMap (fun sp =>
          match sp with
          | .importSpec im =>
              [match readSourceLines disk im.filename im.startLine im.endLine with
               | .ok raw => strTrim raw
               | .error e => s!"// Error reading source: {e}"]
          | _ => [])
    | _ => [])
  if imports.isEmpty then []
  else ["Imports:\n" ++ String.join (imports.map (fun imp => imp ++ "\n"))]

/-- The declaration chunks of `formatFile`'s second pass, in source order:
functions and methods, type specs, and value specs, each included iff it is
exported (for value specs: some declared name is exported) or private
declarations were requested; imports were handled in the first pass. -/
def declChunks (disk : Disk) (gopls : GoplsFn) (iter : IterFn) (f : GoFile)
    (includePrivate : Bool) (workspaceDir : String) : List String :=
  f.decls.flatMap (fun d =>
    match d with
    | .funcDecl fn =>
        if includePrivate || isExportedName fn.name then
          [formatFunction disk gopls iter fn false false workspaceDir]
        else []
    | .genDecl g =>
        g.specs.flatMap (fun sp =>
          match sp with
          | .importSpec _ => []
          | .typeSpec ts =>
              if includePrivate || isExportedName ts.name then
                [formatType disk gopls iter ts false false false g.doc workspaceDir]
              else []
          | .valueSpec vs =>
              if includePrivate || vs.names.any isExportedName then
                [formatVariable disk gopls iter vs false false g.doc workspaceDir]
              else []))

/-- `formatFile`: the header, import and declaration chunks, joined with the
blank-line separator (`addSeparator` writes `"\n\n"` before every chunk but
the first). -/
def formatFile (disk : Disk) (gopls : GoplsFn) (iter : IterFn) (f : GoFile)
    (includePrivate includeImports : Bool) (workspaceDir : String) : String :=
  String.intercalate "\n\n"
    (fileHeaderChunks f ++
     (if includeImports then importChunks disk f else []) ++
     declChunks disk gopls iter f includePrivate workspaceDir)

/-! ### `Inspect` (file targets) and `Rename`

`Inspect` either fails with an error or succeeds with a string assembled
entirely by the formatters, which never fail; the embedding makes this shape
explicit by computing first the plan — the optional syntax-error warning and
the object to be formatted, or the error — and then rendering it.  The
collaborator and map-order oracles flow only into the rendering step, exactly
as in the code, where every error return of `Inspect` happens before any
`gopls` invocation.  Only the `.go`-file branch of `Inspect` is embedded; the
package branch (built on `packages.Load`) is outside this model. -/

/-- What a file inspection renders. -/
inductive InspectTarget : Type where
  | wholeFile (f : GoFile)
  | fnTarget (fn : GoFuncDecl)
  | tyTarget (ts : GoTypeSpec) (parentDoc : Option String)
  | valTarget (vs : GoValueSpec) (parentDoc : Option String)

/-- `findSymbol` of `Inspect`: the first declaration matched by name (when a
name is given) or by line containment (when a positive line is given), in
source order, paired with the doc of the enclosing `GenDecl` that
`formatSymbolWithContext` looks up for specs. -/
def findSymbol (decls : List GoDecl) (symbolName : String) (lineNumber : Int) :
    Option InspectTarget :=
  decls.findSome? (fun d =>
    match d with
    | .funcDecl fn =>
        if (symbolName ≠ "" ∧ fn.name = symbolName) ∨
            (0 < lineNumber ∧ (fn.startLine : Int) ≤ lineNumber ∧
              lineNumber ≤ (fn.endLine : Int)) then
          some (.fnTarget fn)
        else none
    | .genDecl g =>
        g.specs.findSome? (fun sp =>
          match sp with
          | .typeSpec ts =>
              if (symbolName ≠ "" ∧ ts.name = symbolName) ∨
                  (0 < lineNumber ∧ (ts.startLine : Int) ≤ lineNumber ∧
                    lineNumber ≤ (ts.endLine : Int)) then
                some (.tyTarget ts g.doc)
              else none
          | .valueSpec vs =>
              if vs.names.any (fun nm =>
                  (symbolName ≠ "" ∧ nm = symbolName) ∨
                  (0 < lineNumber ∧ (vs.startLine : Int) ≤ lineNumber ∧
                    lineNumber ≤ (vs.endLine : Int))) then
                some (.valTarget vs g.doc)
              else none
          | .importSpec _ => none))

/-- `resolveFilePath`: an absolute path must exist as given; a relative path
is looked up under the workspace directory (the dot-segment cleaning of
`filepath.Join` is not modelled; the theorems use absolute or plain relative
paths). -/
def resolveFilePath (disk : Disk) (filePath workspaceDir : String) :
    Except String String :=
  if strStartsWith filePath "/" then
    if (disk.lines filePath).isSome then .ok filePath
    else .error s!"absolute file path does not exist: {filePath}"
  else
    if (disk.lines (workspaceDir ++ "/" ++ filePath)).isSome then
      .ok (workspaceDir ++ "/" ++ filePath)
    else .error s!"file not found: {filePath} (searched relative to {workspaceDir})"

/-- The dispatch of `Inspect` on a parsed file: whole-file formatting when
neither a line nor a symbol is given, otherwise symbol lookup. -/
def planForFile (f : GoFile) (warn : String) (lineNumber : Int) (symbolName : String) :
    Except String (String × InspectTarget) :=
  if lineNumber = 0 ∧ symbolName = "" then .ok (warn, .wholeFile f)
  else
    match findSymbol f.decls symbolName lineNumber with
    | some tgt => .ok (warn, tgt)
    | none =>
        if symbolName ≠ "" then .error s!"symbol \x27{symbolName}\x27 not found in file"
        else .error s!"no symbol found at line {lineNumber}"

/-- The error-or-plan part of `Inspect` for a `.go` target: workspace
validation, file resolution, parsing (a syntax-error tree continues with a
warning prefix; a missing tree is fatal), and symbol dispatch. -/
def inspectPlan (disk : Disk) (path : String) (lineNumber : Int) (symbolName : String)
    (workspaceDir : String) : Except String (String × InspectTarget) :=
  if workspaceDir = "" then .error "workspace_dir is required for file analysis"
  else if ¬ strStartsWith workspaceDir "/" then
    .error s!"workspace_dir must be an absolute path, got: {workspaceDir}"
  else if ¬ strEndsWith path ".go" then
    .error s!"package targets are outside this embedding: {path}"
  else
    match resolveFilePath disk path workspaceDir with
    | .error e => .error s!"failed to resolve file path: {e}"
    | .ok rp =>
        match disk.parse rp with
        | .noAst m => .error s!"failed to parse file {rp}: {m}"
        | .parsed f => planForFile f "" lineNumber symbolName
        | .withSyntaxErrors f m =>
            planForFile f
              s!"WARNING: Syntax errors found, analysis may be incomplete:\n{m}\n\n"
              lineNumber symbolName

/-- `formatSymbolWithContext` plus the whole-file case: how each target is
rendered, with the flag values used by `Inspect`. -/
def renderTarget (disk : Disk) (gopls : GoplsFn) (iter : IterFn)
    (includePrivate : Bool) (workspaceDir : String) : InspectTarget → String
  | .wholeFile f => formatFile disk gopls iter f includePrivate true workspaceDir
  | .fnTarget fn => formatFunction disk gopls iter fn true true workspaceDir
  | .tyTarget ts pd => formatType disk gopls iter ts true true true pd workspaceDir
  | .valTarget vs pd => formatVariable disk gopls iter vs true true pd workspaceDir

/-- `Inspect` on a `.go` file target: the plan's warning prefix concatenated
with the rendered target, or the plan's error. -/
def inspectGoFile (disk : Disk) (gopls : GoplsFn) (iter : IterFn) (path : String)
    (lineNumber : Int) (symbolName : String) (includePrivate : Bool)
    (workspaceDir : String) : Except String String :=
  (inspectPlan disk path lineNumber symbolName workspaceDir).map
    (fun wt => wt.1 ++ renderTarget disk gopls iter includePrivate workspaceDir wt.2)

/-- `Rename`: input validation, the same-name short circuit, position
resolution, and the delegated `gopls rename -w` call. -/
def Rename (disk : Disk) (gopls : GoplsFn) (filePath : String) (lineNumber : Int)
    (symbolName newName : String) : Except String String :=
  if filePath = "" then .error "file path cannot be empty"
  else if lineNumber ≤ 0 then
    .error s!"line number must be positive, got {lineNumber}"
  else if symbolName = "" then .error "symbol name cannot be empty"
  else if newName = "" then .error "new name cannot be empty"
  else if symbolName = newName then
    .ok s!"Symbol \x27{symbolName}\x27 already has the desired name"
  else
    match createGoplsPosition disk filePath lineNumber symbolName with
    | .error e => .error e
    | .ok position =>
        match gopls ["rename", "-w", position, newName] with
        | .error e =>
            .error s!"failed to rename symbol \x27{symbolName}\x27 at {position}: {e}"
        | .ok out =>
            .ok (if out = "" then
                  s!"Symbol \x27{symbolName}\x27 renamed to \x27{newName}\x27"
                else out)

/-! ### Specification-side view of file-level visibility filtering (for the
refinement statement about `formatFile`) -/

/-- A non-import top-level declaration of a file, flattened as the spec
describes the file pass: functions/methods, type specs and value specs in
source order, each paired with its enclosing grouped declaration's doc. -/
inductive DeclEntry : Type where
  | fnEntry (fn : GoFuncDecl)
  | tyEntry (ts : GoTypeSpec) (parentDoc : Option String)
  | valEntry (vs : GoValueSpec) (parentDoc : Option String)

/-- The non-import declarations of a file in source order. -/
def declEntries (f : GoFile) : List DeclEntry :=
  f.decls.flatMap (fun d =>
    match d with
    | .funcDecl fn => [.fnEntry fn]
    | .genDecl g =>
        g.specs.flatMap (fun sp =>
          match sp with
          | .importSpec _ => []
          | .typeSpec ts => [.tyEntry ts g.doc]
          | .valueSpec vs => [.valEntry vs g.doc]))

/-- Following the spec's words: a declaration is public iff its name's first
character is an upper-case initial letter; a grouped value spec (which
declares several names at once) is public when one of its names is. -/
def entryPublic : DeclEntry → Bool
  | .fnEntry fn => isExportedName fn.name
  | .tyEntry ts _ => isExportedName ts.name
  | .valEntry vs _ => vs.names.any isExportedName

/-- How `formatFile` renders one declaration entry (all cross-file flags
off, as in its second pass). -/
def renderEntry (disk : Disk) (gopls : GoplsFn) (iter : IterFn)
    (workspaceDir : String) : DeclEntry → String
  | .fnEntry fn => formatFunction disk gopls iter fn false false workspaceDir
  | .tyEntry ts pd => formatType disk gopls iter ts false false false pd workspaceDir
  | .valEntry vs pd => formatVariable disk gopls iter vs false false pd workspaceDir

/-! ### Concrete instances used by the closed theorems -/

/-- A one-function workspace file, `/ws/a.go`:
line 1 `package main`, line 2 empty, line 3 `func F() {`, line 4 `}`. -/
def exFn : GoFuncDecl :=
  { name := "F", recv := none, doc := none, filename := "/ws/a.go",
    startLine := 3, sigEndLine := 3, body := some ⟨3, .blockS 3 4 []⟩ }

def exFile : GoFile :=
  { filename := "/ws/a.go", posValid := true, pkgName := "main", doc := none,
    decls := [.funcDecl exFn] }

def exDisk : Disk :=
  { lines := fun p =>
      if p = "/ws/a.go" then some ["package main", "", "func F() \x7b", "\x7d"] else none,
    parse := fun p =>
      if p = "/ws/a.go" then .parsed exFile else .noAst "no such file" }

/-- The same function located outside the workspace, at `/other/b.go`. -/
def exFnOut : GoFuncDecl :=
  { name := "G", recv := none, doc := none, filename := "/other/b.go",
    startLine := 3, sigEndLine := 3, body := some ⟨3, .blockS 3 4 []⟩ }

def exTyOut : GoTypeSpec :=
  { name := "T", doc := none, filename := "/other/b.go",
    startLine := 2, endLine := 2, isInterface := true }

def exTyIn : GoTypeSpec :=
  { name := "I", doc := none, filename := "/ws/a.go",
    startLine := 1, endLine := 1, isInterface := true }

/-- A collaborator that answers every command with empty output. -/
def exOkGopls : GoplsFn := fun _ => .ok ""

/-- A collaborator that fails every command. -/
def exFailGopls : GoplsFn := fun _ => .error "tool crashed"

/-- The identity enumeration order (insertion order). -/
def exIdIter : IterFn := fun l => l

/-- The reverse enumeration order. -/
def exRevIter : IterFn := fun l => l.reverse

/-- A collaborator whose `references` answer for `F` names two locations in
two files that are not on disk (so both degrade to package scope). -/
def exRefsGopls : GoplsFn := fun args =>
  if args = ["references", "/ws/a.go:3:6"] then .ok "/x.go:1:1-2\n/y.go:1:1-2"
  else .ok ""

/-- A file with one exported and one unexported function, `/ws/v.go`:
line 1 `package main`, line 2 `func Exported() {`, line 3 `}`,
line 4 `func unexported() {`, line 5 `}`. -/
def exVisExported : GoFuncDecl :=
  { name := "Exported", recv := none, doc := none, filename := "/ws/v.go",
    startLine := 2, sigEndLine := 2, body := some ⟨2, .blockS 2 3 []⟩ }

def exVisUnexported : GoFuncDecl :=
  { name := "unexported", recv := none, doc := none, filename := "/ws/v.go",
    startLine := 4, sigEndLine := 4, body := some ⟨4, .blockS 4 5 []⟩ }

def exVisFile : GoFile :=
  { filename := "/ws/v.go", posValid := true, pkgName := "main", doc := none,
    decls := [.funcDecl exVisExported, .funcDecl exVisUnexported] }

def exVisDisk : Disk :=
  { lines := fun p =>
      if p = "/ws/v.go" then
        some ["package main", "func Exported() \x7b", "\x7d",
              "func unexported() \x7b", "\x7d"]
      else none,
    parse := fun p =>
      if p = "/ws/v.go" then .parsed exVisFile else .noAst "no such file" }

/-- A disk snapshot where every path stats, reads and parses cleanly with
modification time 5. -/
def exCacheFS : CacheFS := fun _ => ⟨some 5, true, true⟩

/-- A disk snapshot where every read fails. -/
def exCacheFSReadErr : CacheFS := fun _ => ⟨some 5, false, true⟩

/-- A disk snapshot where the file was touched at time 9. -/
def exCacheFSLater : CacheFS := fun _ => ⟨some 9, true, true⟩

/-- A one-entry cache: `/ws/a.go` parsed (token 0) at time 5. -/
def exCache : ParseCache :=
  { files := [("/ws/a.go", ⟨0, 5, "/ws/a.go"⟩)], nextAstId := 1 }

/-- View of `Except` as a sum, to inherit decidable equality. -/
def exceptToSum {ε α : Type} : Except ε α → ε ⊕ α
  | .error e => .inl e
  | .ok a => .inr a

instance {ε α : Type} [DecidableEq ε] [DecidableEq α] : DecidableEq (Except ε α) :=
  fun a b =>
    decidable_of_iff (exceptToSum a = exceptToSum b)
      (by cases a <;> cases b <;> simp [exceptToSum])

/-! ## Theorems -/

/-! ### Parse-cache lemmas -/

theorem fcLookup_mem {l : List (String × CachedFile)} {p : String} {v : CachedFile}
    (h : fcLookup l p = some v) : (p, v) ∈ l := by
  induction l with
  | nil => simp [fcLookup] at h
  | cons hd tl ih =>
      unfold fcLookup at h
      by_cases hk : hd.1 = p
      · obtain ⟨k, w⟩ := hd
        simp only [hk, if_pos] at h
        simp_all
      · obtain ⟨k, w⟩ := hd
        simp only [hk, if_neg] at h
        exact List.mem_cons_of_mem _ (ih h)

theorem fcLookup_fcInsert_self (l : List (String × CachedFile)) (p : String)
    (v : CachedFile) : fcLookup (fcInsert l p v) p = some v := by
  induction l with
  | nil => simp [fcInsert, fcLookup]
  | cons hd tl ih =>
      obtain ⟨k, w⟩ := hd
      by_cases hk : k = p
      · simp [fcInsert, fcLookup, hk]
      · simp [fcInsert, fcLookup, hk, ih]

theorem fcInsert_keys_subset {l : List (String × CachedFile)} {p : String}
    {v : CachedFile} :
    ∀ x ∈ (fcInsert l p v).map Prod.fst, x = p ∨ x ∈ l.map Prod.fst := by
  induction l with
  | nil => simp [fcInsert]
  | cons hd tl ih =>
      obtain ⟨k, w⟩ := hd
      by_cases hk : k = p
      · intro x hx
        simp only [fcInsert, hk, if_pos, List.map_cons, List.mem_cons] at hx
        rcases hx with h | h
        · exact .inl h
        · exact .inr (List.mem_cons_of_mem _ h)
      · intro x hx
        simp only [fcInsert, hk, if_neg, not_false_iff, List.map_cons,
          List.mem_cons] at hx
        rcases hx with h | h
        · exact .inr (by simp [h])
        · rcases ih x h with h2 | h2
          · exact .inl h2
          · exact .inr (by simp [h2])

theorem fcInsert_keys_nodup {l : List (String × CachedFile)} {p : String}
    {v : CachedFile} (h : (l.map Prod.fst).Nodup) :
    ((fcInsert l p v).map Prod.fst).Nodup := by
  induction l with
  | nil => simp [fcInsert]
  | cons hd tl ih =>
      obtain ⟨k, w⟩ := hd
      simp only [List.map_cons, List.nodup_cons] at h
      by_cases hk : k = p
      · subst hk
        simpa [fcInsert] using h
      · simp only [fcInsert, hk, if_neg, not_false_iff, List.map_cons,
          List.nodup_cons]
        refine ⟨fun hmem => ?_, ih h.2⟩
        rcases fcInsert_keys_subset _ hmem with h2 | h2
        · exact hk h2
        · exact h.1 h2

theorem nodup_keys_filter_le_one {l : List (String × CachedFile)}
    (h : (l.map Prod.fst).Nodup) (q : String) :
    (l.filter (fun en => en.1 = q)).length ≤ 1 := by
  induction l with
  | nil => simp
  | cons hd tl ih =>
      obtain ⟨k, w⟩ := hd
      simp only [List.map_cons, List.nodup_cons] at h
      by_cases hk : k = q
      · subst hk
        have : tl.filter (fun en => en.1 = k) = [] := by
          refine List.filter_eq_nil_iff.mpr (fun en hen => ?_)
          intro hq
          exact h.1 (by
            have : en.1 = k := by simpa using hq
            simpa [← this] using List.mem_map_of_mem Prod.fst hen)
        simp [List.filter_cons, this]
      · simpa [List.filter_cons, hk] using ih h.2

/-- Case analysis on the reparse path: either it fails and leaves the state
untouched, or the disk read, parse and stat all succeed and the fresh entry
(with the next identity token and the statted time) is recorded. -/
theorem reparseFile_cases (fs : CacheFS) (cache : ParseCache) (path : String) :
    (∃ e, reparseFile fs cache path = (.error e, cache)) ∨
    (∃ t, (fs path).readOk = true ∧ (fs path).parseOk = true ∧
      (fs path).modTime = some t ∧
      reparseFile fs cache path =
        (.ok ⟨cache.nextAstId, t, path⟩,
         ⟨fcInsert cache.files path ⟨cache.nextAstId, t, path⟩,
          cache.nextAstId + 1⟩)) := by
  unfold reparseFile
  by_cases hr : (fs path).readOk
  · by_cases hp : (fs path).parseOk
    · cases hm : (fs path).modTime with
      | none =>
          refine .inl ⟨s!"failed to stat file {path}", ?_⟩
          simp [hr, hp, hm]
      | some t =>
          refine .inr ⟨t, hr, hp, by simp [hm], ?_⟩
          simp [hr, hp, hm]
    · refine .inl ⟨s!"failed to parse file {path}", ?_⟩
      simp [hr, hp]
  · refine .inl ⟨s!"failed to read file {path}", ?_⟩
    simp [hr]

theorem reparseFile_success {fs : CacheFS} {cache : ParseCache} {path : String}
    {t : Int} (hr : (fs path).readOk = true) (hp : (fs path).parseOk = true)
    (hm : (fs path).modTime = some t) :
    reparseFile fs cache path =
      (.ok ⟨cache.nextAstId, t, path⟩,
       ⟨fcInsert cache.files path ⟨cache.nextAstId, t, path⟩,
        cache.nextAstId + 1⟩) := by
  unfold reparseFile
  simp [hr, hp, hm]

/-- The state after a `GetOrParseFile` call: unchanged, or the old map with
the binding for the requested path overwritten and a fresh token allocated. -/
theorem GetOrParseFile_state_cases (fs : CacheFS) (cache : ParseCache) (path : String) :
    (GetOrParseFile fs cache path).2 = cache ∨
    ∃ ent, (GetOrParseFile fs cache path).2 =
      ⟨fcInsert cache.files path ent, cache.nextAstId + 1⟩ := by
  have hrep : (reparseFile fs cache path).2 = cache ∨
      ∃ ent, (reparseFile fs cache path).2 =
        ⟨fcInsert cache.files path ent, cache.nextAstId + 1⟩ := by
    rcases reparseFile_cases fs cache path with ⟨e, he⟩ | ⟨t, _, _, _, he⟩
    · exact .inl (by rw [he])
    · exact .inr ⟨_, by rw [he]⟩
  unfold GetOrParseFile
  cases hl : fcLookup cache.files path with
  | none => simpa using hrep
  | some cached =>
      cases hm : (fs path).modTime with
      | none => simpa using hrep
      | some t =>
          by_cases ht : t ≤ cached.modTime
          · simp [ht]
          · simpa [ht] using hrep

/-- Claim C10: when `GetOrParseFile` decides to (re)parse and the read, parse
or stat fails, it returns the error and leaves the cache map untouched: the
previous entry for the path, if any, is still there unmodified, and nothing
was inserted (the map is written only after a fully successful parse and
stat). -/
theorem getOrParseFile_error_leaves_cache_unchanged (fs : CacheFS)
    (cache : ParseCache) (path : String) (e : String)
    (h : (GetOrParseFile fs cache path).1 = .error e) :
    (GetOrParseFile fs cache path).2 = cache ∧
    ∀ q, fcLookup (GetOrParseFile fs cache path).2.files q = fcLookup cache.files q := by
  have hrep : (reparseFile fs cache path).1 = .error e →
      (reparseFile fs cache path).2 = cache := by
    intro he
    rcases reparseFile_cases fs cache path with ⟨e2, h2⟩ | ⟨t, _, _, _, h2⟩
    · rw [h2]
    · rw [h2] at he
      simp at he
  have hmain : (GetOrParseFile fs cache path).2 = cache := by
    unfold GetOrParseFile at h ⊢
    cases hl : fcLookup cache.files path with
    | none => simp only [hl] at h ⊢; exact hrep h
    | some cached =>
        cases hm : (fs path).modTime with
        | none => simp only [hl, hm] at h ⊢; exact hrep h
        | some t =>
            by_cases ht : t ≤ cached.modTime
            · simp [hl, hm, ht] at h
            · simp only [hl, hm, ht, if_neg, if_false] at h ⊢
              exact hrep h
  exact ⟨hmain, fun q => by rw [hmain]⟩

/-- Claim C9: `GetOrParseFile` keeps the cache keyed by path with at most one
entry per path: distinct keys are preserved (re-parsing overwrites the prior
binding instead of adding a duplicate), so no two entries name the same file. -/
theorem parseCache_single_entry_per_path (fs : CacheFS) (cache : ParseCache)
    (path : String) (h : (cache.files.map Prod.fst).Nodup) :
    (((GetOrParseFile fs cache path).2.files.map Prod.fst).Nodup) ∧
    ∀ q, ((GetOrParseFile fs cache path).2.files.filter
        (fun en => en.1 = q)).length ≤ 1 := by
  rcases GetOrParseFile_state_cases fs cache path with hc | ⟨ent, hc⟩
  · rw [hc]
    exact ⟨h, fun q => nodup_keys_filter_le_one h q⟩
  · rw [hc]
    have h2 := fcInsert_keys_nodup (l := cache.files) (p := path) (v := ent) h
    exact ⟨h2, fun q => nodup_keys_filter_le_one h2 q⟩

/-- Witness for C9 at a concrete stale cache: the touched file is reparsed and
the keys stay duplicate-free with one entry for the path. -/
theorem parseCache_single_entry_per_path_witness :
    (((GetOrParseFile exCacheFSLater exCache "/ws/a.go").2.files.map Prod.fst).Nodup) ∧
    ((GetOrParseFile exCacheFSLater exCache "/ws/a.go").2.files.filter
        (fun en => en.1 = "/ws/a.go")).length ≤ 1 :=
  ⟨(parseCache_single_entry_per_path exCacheFSLater exCache "/ws/a.go" (by decide)).1,
   (parseCache_single_entry_per_path exCacheFSLater exCache "/ws/a.go" (by decide)).2
     "/ws/a.go"⟩

/-- Witness for C10 at a concrete failing read: the call errors and the cache
is unchanged. -/
theorem getOrParseFile_error_leaves_cache_unchanged_witness :
    (GetOrParseFile exCacheFSReadErr exCache "/other.go").2 = exCache :=
  (getOrParseFile_error_leaves_cache_unchanged exCacheFSReadErr exCache "/other.go"
    "failed to read file /other.go" (by decide)).1

/-- Claim C2: a cache entry is served as valid if and only if the file's
current modification time is not strictly after the recorded one; once the
on-disk time advances, the next call reparses and replaces the entry with a
fresh tree instance instead of returning the old one; while the timestamp is
unchanged, repeated calls return the same cached instance and leave the state
untouched. -/
theorem getOrParseFile_staleness (fs : CacheFS) (cache : ParseCache) (path : String)
    (hwf : CacheWF cache) :
    ((∃ cached, fcLookup cache.files path = some cached ∧
        GetOrParseFile fs cache path = (.ok cached, cache)) ↔
      (∃ cached t, fcLookup cache.files path = some cached ∧
        (fs path).modTime = some t ∧ t ≤ cached.modTime)) ∧
    (∀ cached t, fcLookup cache.files path = some cached →
      (fs path).modTime = some t → cached.modTime < t →
      (fs path).readOk = true → (fs path).parseOk = true →
      ∃ newEntry,
        GetOrParseFile fs cache path =
          (.ok newEntry, ⟨fcInsert cache.files path newEntry, cache.nextAstId + 1⟩) ∧
        newEntry.ast ≠ cached.ast ∧ newEntry.modTime = t ∧
        fcLookup (fcInsert cache.files path newEntry) path = some newEntry) ∧
    (∀ cached t, fcLookup cache.files path = some cached →
      (fs path).modTime = some t → t ≤ cached.modTime →
      GetOrParseFile fs cache path = (.ok cached, cache) ∧
      GetOrParseFile fs (GetOrParseFile fs cache path).2 path = (.ok cached, cache)) := by
  have hserve : ∀ cached t, fcLookup cache.files path = some cached →
      (fs path).modTime = some t → t ≤ cached.modTime →
      GetOrParseFile fs cache path = (.ok cached, cache) := by
    intro cached t hl hm ht
    unfold GetOrParseFile
    simp [hl, hm, ht]
  refine ⟨⟨?_, ?_⟩, ?_, ?_⟩
  · rintro ⟨c0, hl, heq⟩
    cases hm : (fs path).modTime with
    | none =>
        have hred : GetOrParseFile fs cache path = reparseFile fs cache path := by
          unfold GetOrParseFile; rw [hl, hm]
        rw [hred] at heq
        rcases reparseFile_cases fs cache path with ⟨e, h2⟩ | ⟨t, _, _, _, h2⟩
        · rw [h2] at heq
          simp at heq
        · rw [h2] at heq
          have hstate := congrArg (fun st => st.2.nextAstId) heq
          simp at hstate
    | some t =>
        by_cases ht : t ≤ c0.modTime
        · exact ⟨c0, t, hl, rfl, ht⟩
        · have hred : GetOrParseFile fs cache path = reparseFile fs cache path := by
            unfold GetOrParseFile; rw [hl, hm]; exact if_neg ht
          rw [hred] at heq
          rcases reparseFile_cases fs cache path with ⟨e, h2⟩ | ⟨t2, _, _, _, h2⟩
          · rw [h2] at heq
            simp at heq
          · rw [h2] at heq
            have hstate := congrArg (fun st => st.2.nextAstId) heq
            simp at hstate
  · rintro ⟨cached, t, hl, hm, ht⟩
    exact ⟨cached, hl, hserve cached t hl hm ht⟩
  · intro cached t hl hm hlt hr hp
    refine ⟨⟨cache.nextAstId, t, path⟩, ?_, ?_, rfl, fcLookup_fcInsert_self _ _ _⟩
    · have hred : GetOrParseFile fs cache path = reparseFile fs cache path := by
        unfold GetOrParseFile; rw [hl, hm]; exact if_neg (not_le.mpr hlt)
      rw [hred]
      exact reparseFile_success hr hp hm
    · have hmem := fcLookup_mem hl
      have hlt2 := hwf.2 _ hmem
      exact fun hcon => absurd (hcon ▸ hlt2) (lt_irrefl _)
  · intro cached t hl hm ht
    have h1 := hserve cached t hl hm ht
    refine ⟨h1, ?_⟩
    rw [h1]
    exact h1

/-- Witness for C2 at a concrete cache: with the timestamp unchanged the entry
is served and the state preserved; after the timestamp advances the entry is
replaced by a fresh tree. -/
theorem getOrParseFile_staleness_witness :
    (GetOrParseFile exCacheFS exCache "/ws/a.go" = (.ok ⟨0, 5, "/ws/a.go"⟩, exCache)) ∧
    ∃ newEntry, GetOrParseFile exCacheFSLater exCache "/ws/a.go" =
        (.ok newEntry,
         ⟨fcInsert exCache.files "/ws/a.go" newEntry, exCache.nextAstId + 1⟩) ∧
      newEntry.ast ≠ (0 : Nat) :=
  ⟨((getOrParseFile_staleness exCacheFS exCache "/ws/a.go" (by decide)).2.2
      ⟨0, 5, "/ws/a.go"⟩ 5 (by decide) (by decide) (by decide)).1,
   by
    obtain ⟨ne, h1, h2, _, _⟩ :=
      (getOrParseFile_staleness exCacheFSLater exCache "/ws/a.go" (by decide)).2.1
        ⟨0, 5, "/ws/a.go"⟩ 9 (by decide) (by decide) (by decide) (by decide) (by decide)
    exact ⟨ne, h1, h2⟩⟩

/-! ### The rename short circuit -/

/-- Claim C7: for a non-empty file path, a positive line number and non-empty
names, renaming a symbol to the name it already has returns the literal
confirmation message with no error — and, since the conclusion holds for
every disk snapshot and every collaborator, the call reads no file and
invokes no external tool. -/
theorem rename_same_name_short_circuits (filePath : String) (lineNumber : Int)
    (symbolName newName : String) (hfp : filePath ≠ "") (hln : 0 < lineNumber)
    (hsn : symbolName ≠ "") (heq : newName = symbolName) :
    ∀ (disk : Disk) (gopls : GoplsFn),
      Rename disk gopls filePath lineNumber symbolName newName =
        .ok ("Symbol \x27" ++ symbolName ++ "\x27 already has the desired name") := by
  intro disk gopls
  subst heq
  unfold Rename
  rw [if_neg hfp, if_neg (not_le.mpr hln), if_neg hsn, if_neg hsn, if_pos rfl]
  rfl

/-- Witness for C7: the concrete no-op rename of `F`. -/
theorem rename_same_name_short_circuits_witness :
    Rename exDisk exOkGopls "/ws/a.go" 3 "F" "F" =
      .ok "Symbol \x27F\x27 already has the desired name" :=
  rename_same_name_short_circuits "/ws/a.go" 3 "F" "F" (by decide) (by decide)
    (by decide) rfl exDisk exOkGopls

/-! ### Position-resolver lemmas -/

theorem matchesAt_iff {line symbol : List Char} {i : Nat} (hs : symbol ≠ []) :
    matchesAt line symbol i = true ↔
      (i + symbol.length ≤ line.length ∧
       ∀ j, j < symbol.length → line.getD (i + j) ' ' = symbol.getD j ' ') := by
  unfold matchesAt
  rw [beq_iff_eq]
  have hn : 0 < symbol.length := List.length_pos.mpr hs
  constructor
  · intro h
    have hlen := congrArg List.length h
    simp only [List.length_take, List.length_drop] at hlen
    have hbound : i + symbol.length ≤ line.length := by omega
    refine ⟨hbound, fun j hj => ?_⟩
    have hj2 : j < ((line.drop i).take symbol.length).length := by
      simp only [List.length_take, List.length_drop]; omega
    have hj3 : i + j < line.length := by omega
    have e1 := congrArg (fun l => l.getD j ' ') h
    have e2 : ((line.drop i).take symbol.length).getD j ' ' = line.getD (i + j) ' ' := by
      rw [List.getD_eq_getElem _ _ hj2, List.getElem_take, List.getElem_drop,
        List.getD_eq_getElem _ _ hj3]
    simp only [e2] at e1
    exact e1
  · rintro ⟨hbound, hchars⟩
    apply List.ext_getElem
    · simp only [List.length_take, List.length_drop]; omega
    · intro j h1 h2
      have hj : j < symbol.length := h2
      have hj3 : i + j < line.length := by omega
      rw [← List.getD_eq_getElem ((line.drop i).take symbol.length) ' ' h1,
          ← List.getD_eq_getElem symbol ' ' h2]
      have e2 : ((line.drop i).take symbol.length).getD j ' ' = line.getD (i + j) ' ' := by
        rw [List.getD_eq_getElem _ _ h1, List.getElem_take, List.getElem_drop,
          List.getD_eq_getElem _ _ hj3]
      rw [e2]
      exact hchars j hj

theorem isWordBoundary_iff {line symbol : List Char} {i : Nat} :
    isWordBoundary line i symbol = true ↔
      ((0 < i → isIdentifierChar (line.getD (i - 1) ' ') = false) ∧
       (i + symbol.length < line.length →
         isIdentifierChar (line.getD (i + symbol.length) ' ') = false)) := by
  unfold isWordBoundary
  by_cases h1 : 0 < i <;> by_cases h2 : i + symbol.length < line.length <;>
    simp [h1, h2]

theorem scanPred_iff {line symbol : List Char} {i : Nat} (hs : symbol ≠ []) :
    (matchesAt line symbol i && isWordBoundary line i symbol) = true ↔
      boundaryOccurrence line symbol i := by
  rw [Bool.and_eq_true, matchesAt_iff hs, isWordBoundary_iff]
  unfold boundaryOccurrence
  tauto

theorem find?_range_eq_some_iff {p : Nat → Bool} :
    ∀ {n k : Nat}, (List.range n).find? p = some k ↔
      (k < n ∧ p k = true ∧ ∀ j, j < k → p j = false) := by
  intro n
  induction n with
  | zero => intro k; simp
  | succ m ih =>
      intro k
      rw [List.range_succ, List.find?_append]
      constructor
      · intro h
        cases hf : (List.range m).find? p with
        | some k0 =>
            rw [hf] at h
            simp only [Option.or_some] at h
            obtain ⟨hk0, hp0, hmin0⟩ := ih.mp hf
            cases h
            exact ⟨by omega, hp0, hmin0⟩
        | none =>
            rw [hf] at h
            simp only [Option.none_or] at h
            have hall := List.find?_eq_none.mp hf
            have hk : k = m ∧ p m = true := by
              by_cases hpm : p m
              · simp [List.find?, hpm] at h
                exact ⟨h.symm, hpm⟩
              · simp [List.find?, hpm] at h
            obtain ⟨hkm, hpm⟩ := hk
            subst hkm
            refine ⟨by omega, hpm, fun j hj => ?_⟩
            have := hall j (List.mem_range.mpr hj)
            simpa using this
      · rintro ⟨hk, hpk, hmin⟩
        by_cases hkm : k < m
        · rw [ih.mpr ⟨hkm, hpk, hmin⟩]
          simp
        · have hkeq : k = m := by omega
          subst hkeq
          have hnone : (List.range k).find? p = none :=
            List.find?_eq_none.mpr (fun x hx => by
              simp only [List.mem_range] at hx
              simp [hmin x hx])
          rw [hnone]
          simp [List.find?, hpk]

theorem boundaryOccurrence_lt {line symbol : List Char} {i : Nat} (hs : symbol ≠ [])
    (h : boundaryOccurrence line symbol i) :
    i < line.length - symbol.length + 1 := by
  have h1 := h.1
  have hn : 0 < symbol.length := List.length_pos.mpr hs
  omega

/-- Claim C1: for every line and non-empty token, the inner scan of
`createGoplsPosition` returns the 1-based column of the leftmost occurrence of
the token whose neighbouring characters (where present) are not identifier
characters, and returns nothing exactly when no occurrence satisfies the
boundary rule; in particular `Per` against a line reading `Person` fails and
`MyStruct` in `type MyStruct struct \x7b` resolves to column 6. -/
theorem positionResolver_boundary_scan :
    (∀ (line symbol : List Char), symbol ≠ [] →
      (∀ c, findSymbolColumn line symbol = some c ↔
        ∃ i, boundaryOccurrence line symbol i ∧
          (∀ j, j < i → ¬ boundaryOccurrence line symbol j) ∧ c = i + 1) ∧
      (findSymbolColumn line symbol = none ↔
        ∀ i, ¬ boundaryOccurrence line symbol i)) ∧
    findSymbolColumn "Person".toList "Per".toList = none ∧
    findSymbolColumn "type MyStruct struct \x7b".toList "MyStruct".toList = some 6 := by
  refine ⟨?_, by decide, by decide⟩
  intro line symbol hs
  by_cases hlen : line.length < symbol.length
  · have hno : ∀ i, ¬ boundaryOccurrence line symbol i := by
      intro i h
      have := h.1
      omega
    constructor
    · intro c
      constructor
      · intro h
        rw [findSymbolColumn, if_pos hlen] at h
        cases h
      · rintro ⟨i, hbo, -, -⟩
        exact absurd hbo (hno i)
    · constructor
      · intro _
        exact hno
      · intro _
        rw [findSymbolColumn, if_pos hlen]
  · cases hf : (List.range (line.length - symbol.length + 1)).find?
        (fun i => matchesAt line symbol i && isWordBoundary line i symbol) with
    | none =>
        have hnone := List.find?_eq_none.mp hf
        have hno : ∀ i, ¬ boundaryOccurrence line symbol i := by
          intro i hbo
          exact hnone i (List.mem_range.mpr (boundaryOccurrence_lt hs hbo))
            ((scanPred_iff hs).mpr hbo)
        constructor
        · intro c
          constructor
          · intro h
            rw [findSymbolColumn, if_neg hlen] at h
            rw [hf] at h
            cases h
          · rintro ⟨i, hbo, -, -⟩
            exact absurd hbo (hno i)
        · constructor
          · intro _
            exact hno
          · intro _
            rw [findSymbolColumn, if_neg hlen, hf]
    | some k =>
        obtain ⟨hk, hpk, hmin⟩ := find?_range_eq_some_iff.mp hf
        have hbok := (scanPred_iff hs).mp hpk
        have hminbo : ∀ j, j < k → ¬ boundaryOccurrence line symbol j := by
          intro j hj hbo
          have h1 := hmin j hj
          have h2 := (scanPred_iff hs).mpr hbo
          rw [h1] at h2
          cases h2
        constructor
        · intro c
          constructor
          · intro h
            rw [findSymbolColumn, if_neg hlen, hf] at h
            refine ⟨k, hbok, hminbo, ?_⟩
            cases h
            rfl
          · rintro ⟨i, hbo, hmini, rfl⟩
            have hik : i = k := by
              by_contra hne
              rcases Nat.lt_or_ge i k with hlt | hge
              · exact (hminbo i hlt) hbo
              · exact (hmini k (by omega)) hbok
            subst hik
            rw [findSymbolColumn, if_neg hlen, hf]
        · constructor
          · intro h
            rw [findSymbolColumn, if_neg hlen, hf] at h
            cases h
          · intro hno
            exact absurd hbok (hno k)

/-- Witness for C1: the scan applied through the characterization at a
concrete line, resolving `name` in `    var name string` to column 9. -/
theorem positionResolver_boundary_scan_witness :
    findSymbolColumn "    var name string".toList "name".toList = some 9 :=
  ((positionResolver_boundary_scan.1 "    var name string".toList "name".toList
      (by decide)).1 9).mpr ⟨8, by decide, by decide, rfl⟩

/-! ### The block-scope walker reports construct bodies -/

/-- Claim C3 (refuted by the code — the exception clause never fires): at the
call site in `findBlockScopesAtLine` the visitor invokes
`isPartOfConstruct(node, n)` with `node` and `n` both being the block under
visit, so the search for a construct whose body is that block runs inside the
block itself and can never see the block's parent; consequently a bare block
that is the direct body of a construct (here: the body of the `if` on lines
2-4, and the function body itself on lines 1-5) still receives its own
`block` frame, contrary to the claimed exception.  The target line 3 sits
inside `func f() \x7b if x \x7b y() \x7d \x7d` shaped code. -/
theorem findBlockScopes_reports_construct_bodies :
    findBlockScopesAtLine
        (.blockS 1 5 [.ifS 2 4 (.blockS 2 4 [.otherS 3 3 []]) none]) 3 =
      ["block (lines 1-5)", "if (lines 2-4)", "block (lines 2-4)"] ∧
    isPartOfConstruct (.blockS 2 4 [.otherS 3 3 []])
        (.blockS 2 4 [.otherS 3 3 []]) = false :=
  ⟨by decide, by decide⟩

/-! ### Workspace gating of collaborator sections -/

/-- Claim C5: for a declaration whose file lies outside the workspace the
formatted output carries no references, implementers or call-hierarchy
section at all — the output equals the output with those sections disabled —
while inside the workspace, with the include flags set, the sections are
emitted with their headers. -/
theorem workspace_gates_collaborator_sections :
    (∀ (disk : Disk) (gopls : GoplsFn) (iter : IterFn) (fn : GoFuncDecl) (ws : String),
      isFileInWorkspace fn.filename ws = false →
      formatFunction disk gopls iter fn true true ws = formatFunctionCore disk fn) ∧
    (∀ (disk : Disk) (gopls : GoplsFn) (iter : IterFn) (ts : GoTypeSpec) (m : Bool)
        (pd : Option String) (ws : String),
      isFileInWorkspace ts.filename ws = false →
      formatType disk gopls iter ts true true m pd ws =
        formatType disk gopls iter ts false false m pd ws) ∧
    (∀ (disk : Disk) (gopls : GoplsFn) (iter : IterFn) (vs : GoValueSpec) (sc : Bool)
        (pd : Option String) (ws : String),
      isFileInWorkspace vs.filename ws = false →
      formatVariable disk gopls iter vs true sc pd ws =
        formatVariable disk gopls iter vs false sc pd ws) ∧
    (∀ (disk : Disk) (gopls : GoplsFn) (iter : IterFn) (fn : GoFuncDecl) (ws : String),
      isFileInWorkspace fn.filename ws = true →
      formatFunction disk gopls iter fn true true ws =
        formatFunctionCore disk fn ++
          ("\n\n" ++ formatReferences disk gopls iter fn.filename (fn.startLine : Int)
            fn.name) ++
          ("\n\n" ++ formatCallHierarchy disk gopls fn.filename (fn.startLine : Int)
            fn.name)) ∧
    (∀ (disk : Disk) (gopls : GoplsFn) (iter : IterFn) (filePath : String)
        (lineNumber : Int) (symbolName : String),
      (∃ R, formatReferences disk gopls iter filePath lineNumber symbolName =
        "References:\n" ++ R) ∧
      (∃ C, formatCallHierarchy disk gopls filePath lineNumber symbolName =
        "Call Hierarchy:\n" ++ C) ∧
      (∃ I, formatImplementers disk gopls iter filePath lineNumber symbolName =
        "Implementers:\n" ++ I)) ∧
    (∀ (disk : Disk) (gopls : GoplsFn) (iter : IterFn) (ts : GoTypeSpec) (m : Bool)
        (pd : Option String) (ws : String),
      isFileInWorkspace ts.filename ws = true → ts.isInterface = true →
      formatType disk gopls iter ts true true m pd ws =
        formatTypeCore disk ts pd ++
          ("\n\n" ++ formatImplementers disk gopls iter ts.filename (ts.startLine : Int)
            ts.name) ++
          (if m then
              match cacheParse disk ts.filename with
              | .error _ => ""
              | .ok f =>
                  String.join ((typeMethods f ts.name).map (fun mt =>
                    "\n\n" ++ formatFunction disk gopls iter mt false false ws))
            else "") ++
          ("\n\n" ++ formatReferences disk gopls iter ts.filename (ts.startLine : Int)
            ts.name)) := by
  refine ⟨?_, ?_, ?_, ?_, ?_, ?_⟩
  · intro disk gopls iter fn ws h
    simp [formatFunction, h]
  · intro disk gopls iter ts m pd ws h
    simp [formatType, h]
  · intro disk gopls iter vs sc pd ws h
    simp [formatVariable, h]
  · intro disk gopls iter fn ws h
    simp [formatFunction, h]
  · intro disk gopls iter filePath lineNumber symbolName
    exact ⟨⟨_, rfl⟩, ⟨_, rfl⟩, ⟨_, rfl⟩⟩
  · intro disk gopls iter ts m pd ws h hint
    simp [formatType, h, hint]

/-- Witness for C5: the function in `/other/b.go` formatted against workspace
`/ws` carries no collaborator sections; the one in `/ws/a.go` carries both. -/
theorem workspace_gates_collaborator_sections_witness :
    formatFunction exDisk exOkGopls exIdIter exFnOut true true "/ws" =
      formatFunctionCore exDisk exFnOut ∧
    formatFunction exDisk exOkGopls exIdIter exFn true true "/ws" =
      formatFunctionCore exDisk exFn ++
        ("\n\n" ++ formatReferences exDisk exOkGopls exIdIter "/ws/a.go" 3 "F") ++
        ("\n\n" ++ formatCallHierarchy exDisk exOkGopls "/ws/a.go" 3 "F") :=
  ⟨workspace_gates_collaborator_sections.1 exDisk exOkGopls exIdIter exFnOut "/ws"
      (by decide),
   workspace_gates_collaborator_sections.2.2.2.1 exDisk exOkGopls exIdIter exFn "/ws"
      (by decide)⟩

/-! ### Degradation of collaborator subsections -/

theorem formatReferences_gopls_failure {disk : Disk} {gopls : GoplsFn} {iter : IterFn}
    {fp : String} {ln : Int} {sym pos e : String}
    (hfp : fp ≠ "") (hln : 0 < ln) (hsym : sym ≠ "")
    (hpos : createGoplsPosition disk fp ln sym = .ok pos)
    (herr : gopls ["references", pos] = .error e) :
    formatReferences disk gopls iter fp ln sym =
      "References:\n" ++ (s!"gopls references failed: {e}\n" ++ "No references found\n") := by
  unfold formatReferences
  rw [if_neg (by push_neg; exact ⟨hfp, hln, hsym⟩), hpos]
  simp [herr]

theorem formatImplementers_gopls_failure {disk : Disk} {gopls : GoplsFn} {iter : IterFn}
    {fp : String} {ln : Int} {sym pos e : String}
    (hfp : fp ≠ "") (hln : 0 < ln) (hsym : sym ≠ "")
    (hpos : createGoplsPosition disk fp ln sym = .ok pos)
    (herr : gopls ["implementation", pos] = .error e) :
    formatImplementers disk gopls iter fp ln sym =
      "Implementers:\n" ++ s!"gopls implementation failed: {e}\n" := by
  unfold formatImplementers
  rw [if_neg (by push_neg; exact ⟨hfp, hln, hsym⟩), hpos]
  simp [herr]

theorem formatCallHierarchy_gopls_failure {disk : Disk} {gopls : GoplsFn}
    {fp : String} {ln : Int} {sym pos e : String}
    (hfp : fp ≠ "") (hln : 0 < ln) (hsym : sym ≠ "")
    (hpos : createGoplsPosition disk fp ln sym = .ok pos)
    (herr : gopls ["call_hierarchy", pos] = .error e) :
    formatCallHierarchy disk gopls fp ln sym =
      "Call Hierarchy:\n" ++ s!"gopls call_hierarchy failed: {e}\n" := by
  unfold formatCallHierarchy
  rw [if_neg (by push_neg; exact ⟨hfp, hln, hsym⟩), hpos]
  simp [herr]

/-- Claim C6: a collaborator failure while producing the references,
implementers or call-hierarchy subsection degrades exactly that subsection to
an inline error message inside the output; the rest of the output (the
collaborator-free sections) is produced unchanged, and the success of
`Inspect` never depends on the collaborator or on map order — it returns ok
or error identically under every collaborator oracle. -/
theorem external_tool_failure_degrades_subsection :
    (∀ (disk : Disk) (gopls : GoplsFn) (iter : IterFn) (fp : String) (ln : Int)
        (sym pos e : String),
      fp ≠ "" → 0 < ln → sym ≠ "" →
      createGoplsPosition disk fp ln sym = .ok pos →
      gopls ["references", pos] = .error e →
      formatReferences disk gopls iter fp ln sym =
        "References:\n" ++
          (s!"gopls references failed: {e}\n" ++ "No references found\n")) ∧
    (∀ (disk : Disk) (gopls : GoplsFn) (iter : IterFn) (fp : String) (ln : Int)
        (sym pos e : String),
      fp ≠ "" → 0 < ln → sym ≠ "" →
      createGoplsPosition disk fp ln sym = .ok pos →
      gopls ["implementation", pos] = .error e →
      formatImplementers disk gopls iter fp ln sym =
        "Implementers:\n" ++ s!"gopls implementation failed: {e}\n") ∧
    (∀ (disk : Disk) (gopls : GoplsFn) (fp : String) (ln : Int) (sym pos e : String),
      fp ≠ "" → 0 < ln → sym ≠ "" →
      createGoplsPosition disk fp ln sym = .ok pos →
      gopls ["call_hierarchy", pos] = .error e →
      formatCallHierarchy disk gopls fp ln sym =
        "Call Hierarchy:\n" ++ s!"gopls call_hierarchy failed: {e}\n") ∧
    (∀ (disk : Disk) (gopls : GoplsFn) (iter : IterFn) (fn : GoFuncDecl)
        (ws pos e e2 : String),
      isFileInWorkspace fn.filename ws = true →
      fn.filename ≠ "" → 0 < (fn.startLine : Int) → fn.name ≠ "" →
      createGoplsPosition disk fn.filename (fn.startLine : Int) fn.name = .ok pos →
      gopls ["references", pos] = .error e →
      gopls ["call_hierarchy", pos] = .error e2 →
      formatFunction disk gopls iter fn true true ws =
        formatFunctionCore disk fn ++
          ("\n\n" ++ ("References:\n" ++
            (s!"gopls references failed: {e}\n" ++ "No references found\n"))) ++
          ("\n\n" ++ ("Call Hierarchy:\n" ++
            s!"gopls call_hierarchy failed: {e2}\n"))) ∧
    (∀ (disk : Disk) (g1 g2 : GoplsFn) (it1 it2 : IterFn) (path : String) (ln : Int)
        (sym : String) (priv : Bool) (ws : String),
      (inspectGoFile disk g1 it1 path ln sym priv ws).isOk =
        (inspectGoFile disk g2 it2 path ln sym priv ws).isOk) := by
  refine ⟨?_, ?_, ?_, ?_, ?_⟩
  · intro disk gopls iter fp ln sym pos e hfp hln hsym hpos herr
    exact formatReferences_gopls_failure hfp hln hsym hpos herr
  · intro disk gopls iter fp ln sym pos e hfp hln hsym hpos herr
    exact formatImplementers_gopls_failure hfp hln hsym hpos herr
  · intro disk gopls fp ln sym pos e hfp hln hsym hpos herr
    exact formatCallHierarchy_gopls_failure hfp hln hsym hpos herr
  · intro disk gopls iter fn ws pos e e2 hws hfp hln hsym hpos herr hch
    unfold formatFunction
    rw [hws]
    rw [formatReferences_gopls_failure hfp hln hsym hpos herr,
      formatCallHierarchy_gopls_failure hfp hln hsym hpos hch]
    simp
  · intro disk g1 g2 it1 it2 path ln sym priv ws
    unfold inspectGoFile
    cases hp : inspectPlan disk path ln sym ws <;>
      simp [Except.map, Except.isOk, Except.toBool]

/-- Witness for C6: with a collaborator that fails every call, inspecting `F`
still succeeds and the references subsection carries the inline failure. -/
theorem external_tool_failure_degrades_subsection_witness :
    formatReferences exDisk exFailGopls exIdIter "/ws/a.go" 3 "F" =
      "References:\n" ++
        ("gopls references failed: tool crashed\n" ++ "No references found\n") ∧
    (inspectGoFile exDisk exFailGopls exIdIter "/ws/a.go" 0 "F" true "/ws").isOk =
      (inspectGoFile exDisk exOkGopls exRevIter "/ws/a.go" 0 "F" true "/ws").isOk :=
  ⟨external_tool_failure_degrades_subsection.1 exDisk exFailGopls exIdIter
      "/ws/a.go" 3 "F" "/ws/a.go:3:6" "tool crashed" (by decide) (by decide)
      (by decide) (by decide) rfl,
   external_tool_failure_degrades_subsection.2.2.2.2 exDisk exFailGopls exOkGopls
      exIdIter exRevIter "/ws/a.go" 0 "F" true "/ws"⟩

/-! ### Visibility filtering -/

theorem specChunks_eq (disk : Disk) (gopls : GoplsFn) (iter : IterFn) (ws : String)
    (ip : Bool) (gdoc : Option String) (specs : List GoSpec) :
    (specs.flatMap (fun sp =>
      match sp with
      | .importSpec _ => []
      | .typeSpec ts =>
          if ip || isExportedName ts.name then
            [formatType disk gopls iter ts false false false gdoc ws]
          else []
      | .valueSpec vs =>
          if ip || vs.names.any isExportedName then
            [formatVariable disk gopls iter vs false false gdoc ws]
          else [])) =
    ((specs.flatMap (fun sp =>
      match sp with
      | .importSpec _ => []
      | .typeSpec ts => [DeclEntry.tyEntry ts gdoc]
      | .valueSpec vs => [DeclEntry.valEntry vs gdoc])).filter
        (fun en => ip || entryPublic en)).map (renderEntry disk gopls iter ws) := by
  induction specs with
  | nil => simp
  | cons sp rest ih =>
      simp only [List.flatMap_cons, List.filter_append, List.map_append, ih]
      cases sp with
      | importSpec im => simp
      | typeSpec ts =>
          by_cases hc : ip || isExportedName ts.name
          · simp [hc, entryPublic, renderEntry]
          · simp [hc, entryPublic, renderEntry,
              List.filter_cons, Bool.or_eq_true] at hc ⊢
      | valueSpec vs =>
          by_cases hc : ip || vs.names.any isExportedName
          · simp [hc, entryPublic, renderEntry]
          · simp [hc, entryPublic, renderEntry,
              List.filter_cons, Bool.or_eq_true] at hc ⊢

theorem declChunks_eq_entries (disk : Disk) (gopls : GoplsFn) (iter : IterFn)
    (f : GoFile) (ip : Bool) (ws : String) :
    declChunks disk gopls iter f ip ws =
      ((declEntries f).filter (fun en => ip || entryPublic en)).map
        (renderEntry disk gopls iter ws) := by
  obtain ⟨fname, pv, pkg, fdoc, decls⟩ := f
  simp only [declChunks, declEntries]
  induction decls with
  | nil => simp
  | cons d rest ih =>
      simp only [List.flatMap_cons, List.filter_append, List.map_append, ih]
      cases d with
      | funcDecl fn =>
          by_cases hc : ip || isExportedName fn.name
          · simp [hc, entryPublic, renderEntry]
          · simp [List.filter_cons, hc, entryPublic, renderEntry,
              Bool.or_eq_true] at hc ⊢
      | genDecl g =>
          simpa using congrArg (· ++
            (((rest.flatMap (fun d => match d with
              | .funcDecl fn => [DeclEntry.fnEntry fn]
              | .genDecl g2 => g2.specs.flatMap (fun sp =>
                  match sp with
                  | .importSpec _ => []
                  | .typeSpec ts => [DeclEntry.tyEntry ts g2.doc]
                  | .valueSpec vs => [DeclEntry.valEntry vs g2.doc]))).filter
                (fun en => ip || entryPublic en)).map (renderEntry disk gopls iter ws)))
            (specChunks_eq disk gopls iter ws ip g.doc g.specs)

/-- Claim C8: in a whole-file inspection the declaration chunks are exactly
the renderings of the declarations passing the visibility filter — with
`includePrivate` false, precisely the public ones (upper-case initial
letter; for a grouped value spec, some declared name public) — and with
`includePrivate` true, all of them; concretely, a file holding `Exported` and
`unexported` yields only `Exported`'s chunk in a public-only inspection and
both chunks otherwise. -/
theorem formatFile_public_only_filter :
    (∀ (disk : Disk) (gopls : GoplsFn) (iter : IterFn) (f : GoFile) (ip : Bool)
        (ws : String),
      declChunks disk gopls iter f ip ws =
        ((declEntries f).filter (fun en => ip || entryPublic en)).map
          (renderEntry disk gopls iter ws) ∧
      formatFile disk gopls iter f ip true ws =
        String.intercalate "\n\n"
          (fileHeaderChunks f ++ importChunks disk f ++
           ((declEntries f).filter (fun en => ip || entryPublic en)).map
             (renderEntry disk gopls iter ws))) ∧
    declChunks exVisDisk exOkGopls exIdIter exVisFile false "/ws" =
      [formatFunction exVisDisk exOkGopls exIdIter exVisExported false false "/ws"] ∧
    declChunks exVisDisk exOkGopls exIdIter exVisFile true "/ws" =
      [formatFunction exVisDisk exOkGopls exIdIter exVisExported false false "/ws",
       formatFunction exVisDisk exOkGopls exIdIter exVisUnexported false false "/ws"] := by
  refine ⟨?_, by decide, by decide⟩
  intro disk gopls iter f ip ws
  refine ⟨declChunks_eq_entries disk gopls iter f ip ws, ?_⟩
  rw [formatFile, declChunks_eq_entries disk gopls iter f ip ws]
  simp

/-- Witness for C8: the general filter applied at the concrete two-function
file with public-only filtering. -/
theorem formatFile_public_only_filter_witness :
    declChunks exVisDisk exOkGopls exIdIter exVisFile false "/ws" =
      ((declEntries exVisFile).filter (fun en => false || entryPublic en)).map
        (renderEntry exVisDisk exOkGopls exIdIter "/ws") :=
  (formatFile_public_only_filter.1 exVisDisk exOkGopls exIdIter exVisFile false
    "/ws").1

/-! ### Map-iteration order and output stability -/

theorem renderChunks_nil : renderChunks [] = "" := rfl

/-- Claim C4 as stated is false: a run of the program corresponds to a choice
of map enumeration order (any permutation of each key set), and two runs of
`Inspect` with identical inputs and identical collaborator responses but
different enumeration orders of the reference groups produce different
strings.  Here the `references` answer names two package-scope files; the
insertion order and its reverse are both permutations of the key set, yet the
rendered outputs differ byte-wise. -/
theorem inspect_output_depends_on_map_order :
    (exIdIter ["/x.go", "/y.go"]).Perm (exRevIter ["/x.go", "/y.go"]) ∧
    inspectGoFile exDisk exRefsGopls exIdIter "/ws/a.go" 0 "F" true "/ws" ≠
      inspectGoFile exDisk exRefsGopls exRevIter "/ws/a.go" 0 "F" true "/ws" :=
  ⟨by decide, by decide⟩

/-- Claim C4 amended: re-running inspection on unchanged source, cache state
and collaborator responses yields byte-identical output whenever the map
enumeration order is also unchanged; across different enumeration orders the
References/Implementers sections agree up to a permutation of their group
events, everything else being byte-identical. -/
theorem inspect_stable_up_to_group_order :
    (∀ (disk : Disk) (gopls : GoplsFn) (it1 it2 : IterFn) (fp : String) (ln : Int)
        (sym : String),
      (∀ l, (it1 l).Perm (it2 l)) →
      ∃ pre ev1 ev2,
        formatReferences disk gopls it1 fp ln sym = pre ++ renderChunks ev1 ∧
        formatReferences disk gopls it2 fp ln sym = pre ++ renderChunks ev2 ∧
        ev1.Perm ev2) ∧
    (∀ (disk : Disk) (gopls : GoplsFn) (it1 it2 : IterFn) (fp : String) (ln : Int)
        (sym : String),
      (∀ l, (it1 l).Perm (it2 l)) →
      ∃ pre ev1 ev2,
        formatImplementers disk gopls it1 fp ln sym = pre ++ renderChunks ev1 ∧
        formatImplementers disk gopls it2 fp ln sym = pre ++ renderChunks ev2 ∧
        ev1.Perm ev2) ∧
    (∀ (disk : Disk) (gopls : GoplsFn) (it1 it2 : IterFn) (path : String) (ln : Int)
        (sym : String) (priv : Bool) (ws : String),
      (∀ l, it1 l = it2 l) →
      inspectGoFile disk gopls it1 path ln sym priv ws =
        inspectGoFile disk gopls it2 path ln sym priv ws) := by
  refine ⟨?_, ?_, ?_⟩
  · intro disk gopls it1 it2 fp ln sym h
    unfold formatReferences
    by_cases hval : fp = "" ∨ ln ≤ 0 ∨ sym = ""
    · exact ⟨"References:\n" ++ "Invalid parameters for finding references\n", [], [],
        by simp [hval, renderChunks], by simp [hval, renderChunks], .nil⟩
    · cases hpos : createGoplsPosition disk fp ln sym with
      | error e =>
          exact ⟨"References:\n" ++ s!"Failed to find references: {e}\n", [], [],
            by simp [hval, hpos, renderChunks], by simp [hval, hpos, renderChunks], .nil⟩
      | ok position =>
          cases hg : gopls ["references", position] with
          | error e =>
              exact ⟨"References:\n" ++
                  (s!"gopls references failed: {e}\n" ++ "No references found\n"), [], [],
                by simp [hval, hpos, hg, renderChunks],
                by simp [hval, hpos, hg, renderChunks], .nil⟩
          | ok out =>
              by_cases hout : out = ""
              · exact ⟨"References:\n" ++ "No references found\n", [], [],
                  by simp [hval, hpos, hg, hout, renderChunks],
                  by simp [hval, hpos, hg, hout, renderChunks], .nil⟩
              · by_cases hemp : (collectRefScopes disk out).1 = [] ∧
                    (collectRefScopes disk out).2 = []
                · exact ⟨"References:\n" ++ "No references found\n", [], [],
                    by simp [hval, hpos, hg, hout, hemp, renderChunks],
                    by simp [hval, hpos, hg, hout, hemp, renderChunks], .nil⟩
                · refine ⟨"References:\n",
                    (it1 (collectRefScopes disk out).1).flatMap (refFuncScopeEvents disk) ++
                      (it1 (collectRefScopes disk out).2).map
                        (fun fp2 => (true, "  Package scope: " ++ fp2 ++ "\n")),
                    (it2 (collectRefScopes disk out).1).flatMap (refFuncScopeEvents disk) ++
                      (it2 (collectRefScopes disk out).2).map
                        (fun fp2 => (true, "  Package scope: " ++ fp2 ++ "\n")),
                    by simp [hval, hpos, hg, hout, hemp],
                    by simp [hval, hpos, hg, hout, hemp],
                    ((h _).flatMap_right _).append ((h _).map _)⟩
  · intro disk gopls it1 it2 fp ln sym h
    unfold formatImplementers
    by_cases hval : fp = "" ∨ ln ≤ 0 ∨ sym = ""
    · exact ⟨"Implementers:\n" ++ "Invalid parameters for finding implementers\n", [], [],
        by simp [hval, renderChunks], by simp [hval, renderChunks], .nil⟩
    · cases hpos : createGoplsPosition disk fp ln sym with
      | error e =>
          exact ⟨"Implementers:\n" ++ s!"Failed to find implementers: {e}\n", [], [],
            by simp [hval, hpos, renderChunks], by simp [hval, hpos, renderChunks], .nil⟩
      | ok position =>
          cases hg : gopls ["implementation", position] with
          | error e =>
              exact ⟨"Implementers:\n" ++ s!"gopls implementation failed: {e}\n", [], [],
                by simp [hval, hpos, hg, renderChunks],
                by simp [hval, hpos, hg, renderChunks], .nil⟩
          | ok out =>
              by_cases hout : out = ""
              · exact ⟨"Implementers:\n" ++ "No implementers found\n", [], [],
                  by simp [hval, hpos, hg, hout, renderChunks],
                  by simp [hval, hpos, hg, hout, renderChunks], .nil⟩
              · by_cases hemp : (collectImplementers out) = []
                · exact ⟨"Implementers:\n" ++ "No implementers found\n", [], [],
                    by simp [hval, hpos, hg, hout, hemp, renderChunks],
                    by simp [hval, hpos, hg, hout, hemp, renderChunks], .nil⟩
                · refine ⟨"Implementers:\n",
                    (it1 ((collectImplementers out).map Prod.fst)).flatMap (fun fp2 =>
                      implFileEvents disk fp2 ((((collectImplementers out).lookup fp2)).getD [])),
                    (it2 ((collectImplementers out).map Prod.fst)).flatMap (fun fp2 =>
                      implFileEvents disk fp2 ((((collectImplementers out).lookup fp2)).getD [])),
                    by simp [hval, hpos, hg, hout, hemp],
                    by simp [hval, hpos, hg, hout, hemp],
                    (h _).flatMap_right _⟩
  · intro disk gopls it1 it2 path ln sym priv ws h
    have : it1 = it2 := funext h
    rw [this]

/-- Witness for the amended C4: the reference groups of the two-file answer
under insertion order and reverse order are permutations of each other. -/
theorem inspect_stable_up_to_group_order_witness :
    ∃ pre ev1 ev2,
      formatReferences exDisk exRefsGopls exIdIter "/ws/a.go" 3 "F" =
        pre ++ renderChunks ev1 ∧
      formatReferences exDisk exRefsGopls exRevIter "/ws/a.go" 3 "F" =
        pre ++ renderChunks ev2 ∧
      ev1.Perm ev2 :=
  inspect_stable_up_to_group_order.1 exDisk exRefsGopls exIdIter exRevIter
    "/ws/a.go" 3 "F" (fun l => (List.reverse_perm l).symm)
